import Mathlib

/-!
# musa: a shallow embedding of `musa.go`

The daemon's configuration value, its redacted serialisation, the flag table of
`main`, the start-up sequence of `daemonAction` and the signal listener of `main`
are embedded as Lean definitions.  Calls into other packages (key generation,
base64 decoding, provider constructors, host construction, DHT bootstrap) are
taken from an explicit environment record, so that every run of `daemonAction`
is a function of the process-wide configuration and of that environment.
-/

set_option linter.unusedVariables false

namespace Musa

/-! ## Formatting helpers (`fmt.Sprintf`, `strconv`) -/

/-- The double quote character (U+0022). -/
def dquote : Char := Char.ofNat 34

/-- The backslash character (U+005C). -/
def bslash : Char := Char.ofNat 92

/-- Base-10 rendering of a Go `int`, as produced by the `%d` verb and by the JSON
encoder: an optional minus sign followed by the decimal digits. -/
def formatInt (i : Int) : String :=
  match i with
  | Int.ofNat n => String.mk (Nat.toDigits 10 n)
  | Int.negSucc n => String.mk ('-' :: Nat.toDigits 10 (n + 1))

/-- An operand of `fmt.Sprintf` / `fmt.Errorf`. -/
inductive Arg where
  | str (s : String)
  | int (i : Int)
  | err (msg : String)

/-- Expansion of a format string, restricted to the verbs the program uses: `%s`
with a string operand, `%d` with an integer operand and `%w` with an error operand
(rendered as the error's message).  Every other character is copied. -/
def sprintfAux : List Char → List Arg → List Char
  | [], _ => []
  | [c], _ => [c]
  | c :: v :: rest, args =>
    if c = '%' then
      match args with
      | Arg.str s :: more => if v = 's' then s.data ++ sprintfAux rest more
                             else c :: sprintfAux (v :: rest) args
      | Arg.int i :: more => if v = 'd' then (formatInt i).data ++ sprintfAux rest more
                             else c :: sprintfAux (v :: rest) args
      | Arg.err m :: more => if v = 'w' then m.data ++ sprintfAux rest more
                             else c :: sprintfAux (v :: rest) args
      | [] => c :: sprintfAux (v :: rest) args
    else c :: sprintfAux (v :: rest) args

/-- Model of `fmt.Sprintf(format, args...)`. -/
def Sprintf (format : String) (args : List Arg) : String :=
  String.mk (sprintfAux format.data args)

/-- Model of `fmt.Errorf(format, args...)`: errors are represented by their message. -/
def Errorf (format : String) (args : List Arg) : String :=
  Sprintf format args

/-- Substring test on strings: `k` occurs in `s` as a contiguous run of characters. -/
def Contains (s k : String) : Prop := k.data <:+: s.data

instance (s k : String) : Decidable (Contains s k) := by
  unfold Contains; infer_instance

/-! ## `Config` (lines 39-71) -/

/-- The configuration record, field for field. -/
structure Config where
  Host : String
  Port : Int
  PrivateKey : String
  ProtocolID : String
  MetricsHost : String
  MetricsPort : Int
  TraceHost : String
  TracePort : Int
  LogLevel : Int
deriving DecidableEq, Repr

/-- The constant `dht.ProtocolIPFS` of the DHT package. -/
def ProtocolIPFS : String := "/ipfs/kad/1.0.0"

/-- The constant `slog.LevelInfo`. -/
def LevelInfo : Int := 0

/-- The constant `slog.LevelDebug`. -/
def LevelDebug : Int := -4

/-- The initial value of the process-wide variable `cfg` (lines 66-71); fields not
listed in the composite literal hold Go's zero values. -/
def cfgInit : Config :=
  { Host := "127.0.0.1"
    Port := 0
    PrivateKey := ""
    ProtocolID := ProtocolIPFS
    MetricsHost := ""
    MetricsPort := 0
    TraceHost := ""
    TracePort := 0
    LogLevel := LevelInfo }

/-- The string-valued fields of `Config` a flag can point at. -/
inductive StringField where
  | Host | PrivateKey | ProtocolID | MetricsHost | TraceHost
deriving DecidableEq, Repr

/-- The integer-valued fields of `Config` a flag can point at. -/
inductive IntField where
  | Port | MetricsPort | TracePort | LogLevel
deriving DecidableEq, Repr

/-- Store through a `*string` pointing at a field of `cfg`. -/
def Config.setString (c : Config) (f : StringField) (v : String) : Config :=
  match f with
  | .Host => { c with Host := v }
  | .PrivateKey => { c with PrivateKey := v }
  | .ProtocolID => { c with ProtocolID := v }
  | .MetricsHost => { c with MetricsHost := v }
  | .TraceHost => { c with TraceHost := v }

/-- Store through a `*int` pointing at a field of `cfg`. -/
def Config.setInt (c : Config) (f : IntField) (v : Int) : Config :=
  match f with
  | .Port => { c with Port := v }
  | .MetricsPort => { c with MetricsPort := v }
  | .TracePort => { c with TracePort := v }
  | .LogLevel => { c with LogLevel := v }

/-- Lower-case hexadecimal digit of `n % 16`. -/
def hexDigit (n : Nat) : Char :=
  ("0123456789abcdef".data).getD (n % 16) '0'

/-- JSON escaping of one character of a string value, as `encoding/json` does it
with HTML escaping on (the default of `json.Marshal`): quote and backslash get a
backslash; backspace, form feed, line feed, carriage return and tab their short
forms `\b`, `\f`, `\n`, `\r`, `\t`; the other control characters and `<`, `>`,
`&` the form `\u00XX`; and U+2028 / U+2029 the form `\u202X`.  Strings are sequences
of Unicode characters here, so the replacement of invalid UTF-8 bytes does not
arise. -/
def escapeChar (c : Char) : List Char :=
  let n := c.toNat
  if n = 34 ∨ n = 92 then [bslash, c]
  else if n = 8 then [bslash, 'b']
  else if n = 12 then [bslash, 'f']
  else if n = 10 then [bslash, 'n']
  else if n = 13 then [bslash, 'r']
  else if n = 9 then [bslash, 't']
  else if n < 32 ∨ n = 60 ∨ n = 62 ∨ n = 38 then
    [bslash, 'u', '0', '0', hexDigit (n / 16), hexDigit n]
  else if n = 8232 ∨ n = 8233 then
    [bslash, 'u', '2', '0', '2', hexDigit n]
  else [c]

/-- The escaped body of a JSON string value (without the surrounding quotes). -/
def escapeString (s : String) : List Char :=
  s.data.flatMap escapeChar

/-- JSON encoding of a string value. -/
def encodeString (s : String) : List Char :=
  dquote :: (escapeString s ++ [dquote])

/-- One member `"name":` of the JSON object. -/
def memberName (name : String) : List Char :=
  dquote :: (name.data ++ [dquote, ':'])

/-- Model of `json.Marshal` on a `Config`: an object with one member per field, in
declaration order, under the field's own name (the struct has no tags). -/
def jsonMarshal (c : Config) : String :=
  String.mk (
    '\x7b' :: (memberName "Host" ++ encodeString c.Host ++ ',' ::
    (memberName "Port" ++ (formatInt c.Port).data ++ ',' ::
    (memberName "PrivateKey" ++ encodeString c.PrivateKey ++ ',' ::
    (memberName "ProtocolID" ++ encodeString c.ProtocolID ++ ',' ::
    (memberName "MetricsHost" ++ encodeString c.MetricsHost ++ ',' ::
    (memberName "MetricsPort" ++ (formatInt c.MetricsPort).data ++ ',' ::
    (memberName "TraceHost" ++ encodeString c.TraceHost ++ ',' ::
    (memberName "TracePort" ++ (formatInt c.TracePort).data ++ ',' ::
    (memberName "LogLevel" ++ (formatInt c.LogLevel).data ++ ['\x7d']))))))))))

/-- The body of `Config.String` with its effect on the caller made explicit: the
method has a value receiver, so it works on a copy; the first component is the
caller's value after the call, the second the returned string. -/
def Config.StringCall (c : Config) : Config × String :=
  let tmp := c
  let tmp := { tmp with PrivateKey := "" }
  let data := jsonMarshal tmp
  (c, data)

/-- The method `func (c Config) String() string` (lines 51-56). -/
def Config.String (c : Config) : String :=
  c.StringCall.2

/-- The method `func (c Config) EnableMeterProvider() bool` (lines 58-60).  The body
reads the process-wide variable `cfg`, passed here as the second argument, and not
the receiver `c`. -/
def Config.EnableMeterProvider (c : Config) (cfg : Config) : Bool :=
  cfg.MetricsHost != "" && cfg.MetricsPort != 0

/-- The method `func (c Config) EnableTraceProvider() bool` (lines 62-64), with the
process-wide variable `cfg` as the second argument. -/
def Config.EnableTraceProvider (c : Config) (cfg : Config) : Bool :=
  cfg.TraceHost != "" && cfg.TracePort != 0

/-! ## The flag table of `main` (lines 78-139) -/

/-- A `cli.StringFlag` literal: name, default `Value`, `Destination` and `EnvVars`. -/
structure StringFlag where
  Name : String
  Value : String
  Destination : StringField
  EnvVars : List String
deriving DecidableEq, Repr

/-- A `cli.IntFlag` literal. -/
structure IntFlag where
  Name : String
  Value : Int
  Destination : IntField
  EnvVars : List String
deriving DecidableEq, Repr

/-- The `host` flag (lines 79-85). -/
def hostFlag : StringFlag :=
  { Name := "host", Value := cfgInit.Host, Destination := .Host, EnvVars := ["MUSA_HOST"] }

/-- The `port` flag (lines 86-93). -/
def portFlag : IntFlag :=
  { Name := "port", Value := cfgInit.Port, Destination := .Port, EnvVars := ["MUSA_PORT"] }

/-- The `private-key` flag (lines 94-100): `Value: cfg.Host`, `Destination: &cfg.Host`. -/
def privateKeyFlag : StringFlag :=
  { Name := "private-key", Value := cfgInit.Host, Destination := .Host,
    EnvVars := ["MUSA_PRIVATE_KEY"] }

/-- The `protocol` flag (lines 101-107). -/
def protocolFlag : StringFlag :=
  { Name := "protocol", Value := cfgInit.ProtocolID, Destination := .ProtocolID,
    EnvVars := ["MUSA_PROTOCOL"] }

/-- The `metrics-host` flag (lines 108-113); no `Value`, so the zero value. -/
def metricsHostFlag : StringFlag :=
  { Name := "metrics-host", Value := "", Destination := .MetricsHost,
    EnvVars := ["MUSA_METRICS_HOST"] }

/-- The `metrics-port` flag (lines 114-119). -/
def metricsPortFlag : IntFlag :=
  { Name := "metrics-port", Value := 0, Destination := .MetricsPort,
    EnvVars := ["MUSA_METRICS_PORT"] }

/-- The `trace-host` flag (lines 120-125). -/
def traceHostFlag : StringFlag :=
  { Name := "trace-host", Value := "", Destination := .TraceHost,
    EnvVars := ["MUSA_TRACE_HOST"] }

/-- The `trace-port` flag (lines 126-131). -/
def tracePortFlag : IntFlag :=
  { Name := "trace-port", Value := 0, Destination := .TracePort,
    EnvVars := ["MUSA_TRACE_PORT"] }

/-- The `log-level` flag (lines 132-138). -/
def logLevelFlag : IntFlag :=
  { Name := "log-level", Value := cfgInit.LogLevel, Destination := .LogLevel,
    EnvVars := ["MUSA_LOG_LEVEL"] }

/-- The string flags of the application, in source order. -/
def stringFlags : List StringFlag :=
  [hostFlag, privateKeyFlag, protocolFlag, metricsHostFlag, traceHostFlag]

/-- The integer flags of the application, in source order. -/
def intFlags : List IntFlag :=
  [portFlag, metricsPortFlag, tracePortFlag, logLevelFlag]

/-- A supplied value of a string flag is stored through the flag's `Destination`. -/
def StringFlag.set (f : StringFlag) (v : String) (cfg : Config) : Config :=
  cfg.setString f.Destination v

/-- A supplied value of an integer flag is stored through the flag's `Destination`. -/
def IntFlag.set (f : IntFlag) (v : Int) (cfg : Config) : Config :=
  cfg.setInt f.Destination v

/-- The flag set after every string flag has been applied, in source order, with
the environment holding at most the variable `var` with value `v`: each flag
stores, through its `Destination`, the value of its environment variable when that
is `var`, and its default `Value` otherwise.  Two flags with the same
`Destination` overwrite each other in this order. -/
def applyStringFlags (env : Option (String × String)) (cfg : Config) : Config :=
  stringFlags.foldl
    (fun c f =>
      match env with
      | some (var, v) => f.set (if f.EnvVars.contains var then v else f.Value) c
      | none => f.set f.Value c)
    cfg

/-- Supplying `--<name> v` on the command line with an empty environment: after
the flags have been applied with their defaults, parsing the argument stores `v`
through the `Destination` of the string flag of that name, if there is one. -/
def applyStringArg (name v : String) (cfg : Config) : Config :=
  let cfg := applyStringFlags none cfg
  match stringFlags.find? (fun f => f.Name == name) with
  | some f => f.set v cfg
  | none => cfg

/-- Supplying `v` in the environment variable `var`, with no command line
arguments: the configuration after the flags have been applied. -/
def applyStringEnv (var v : String) (cfg : Config) : Config :=
  applyStringFlags (some (var, v)) cfg

/-- One operator-supplied setting: a string or integer flag together with its value. -/
inductive Setting where
  | string (f : StringFlag) (v : String)
  | int (f : IntFlag) (v : Int)

/-- The effect of one setting on the process-wide configuration. -/
def Setting.apply (s : Setting) (cfg : Config) : Config :=
  match s with
  | .string f v => f.set v cfg
  | .int f v => f.set v cfg

/-- A setting is well formed when its flag is one of the application's flags. -/
def Setting.Declared (s : Setting) : Prop :=
  match s with
  | .string f _ => f ∈ stringFlags
  | .int f _ => f ∈ intFlags

/-- The configuration after a sequence of settings, starting from `cfg`. -/
def applySettings (cfg : Config) (ss : List Setting) : Config :=
  ss.foldl (fun c s => s.apply c) cfg

/-! ## `daemonAction` (lines 159-289) -/

/-- A private key as the crypto package hands it out; only its identity matters. -/
structure PrivKey where
  raw : List Nat
deriving DecidableEq, Repr

/-- What `newMeterProvider` returns on success: the no-op provider or an SDK
provider reading from the Prometheus exporter. -/
inductive MeterProvider where
  | noop
  | sdk
deriving DecidableEq, Repr

/-- What `newTraceProvider` returns on success: the no-op provider or an SDK
provider batching to the OTLP endpoint. -/
inductive TracerProvider where
  | noop
  | sdk (endpoint : String)
deriving DecidableEq, Repr

/-- The fields of the DHT configuration that `daemonAction` assigns (lines 178-187). -/
structure DHTConfig where
  ProtocolID : String
  MeterProvider : MeterProvider
  TracerProvider : TracerProvider
  NullDatastore : Bool
deriving DecidableEq, Repr

/-- The constructed libp2p host, as far as `daemonAction` looks at it. -/
structure P2PHost where
  ID : String
  Addrs : List String
deriving DecidableEq, Repr

/-- The outcomes of the calls `daemonAction` makes into other packages.  An error
is represented by its message; `none` (or `Except.ok`) is success. -/
structure Env where
  /-- Error returned by `prometheus.New()`. -/
  prometheusNew : Option String
  /-- Error returned by `otlptracegrpc.New` for an endpoint. -/
  otlptracegrpcNew : String → Option String
  /-- Result of `crypto.GenerateEd25519Key(rand.Reader)`. -/
  GenerateEd25519Key : Except String PrivKey
  /-- Result of `base64.RawStdEncoding.DecodeString`. -/
  DecodeString : String → Except String (List Nat)
  /-- Result of `crypto.UnmarshalPrivateKey`. -/
  UnmarshalPrivateKey : List Nat → Except String PrivKey
  /-- Result of `libp2p.New` for an identity, listen addresses and DHT configuration
  (the routing callback `dht.New` included). -/
  libp2pNew : PrivKey → List String → DHTConfig → Except String P2PHost
  /-- Error returned by `d.Bootstrap`. -/
  Bootstrap : Option String
  /-- Whether the lifetime context passed to the action is ever canceled. -/
  ctxCanceled : Bool

/-- The observable actions of one run, in program order. -/
inductive Event where
  | slog (level : Int) (msg : String) (attrs : List (String × String))
  | newMeterProvider (ok : Bool)
  | newTraceProvider (ok : Bool)
  | goServeMetrics (addr : String)
  | GenerateEd25519Key (ok : Bool)
  | DecodeString (input : String) (ok : Bool)
  | UnmarshalPrivateKey (ok : Bool)
  | libp2pNew (key : PrivKey) (addrs : List String) (dhtConfig : DHTConfig) (ok : Bool)
  | Bootstrap (ok : Bool)
  | ctxDone
deriving DecidableEq, Repr

/-- How a call of `daemonAction` ends: it returns an error value (`none` is `nil`),
or it stays blocked on the lifetime context. -/
inductive Outcome where
  | returned (err : Option String)
  | blocked
deriving DecidableEq, Repr

/-- The events of a run and the way it ended. -/
structure Run where
  trace : List Event
  outcome : Outcome
deriving DecidableEq, Repr

/-- Prepend the events that happened before the rest of a run. -/
def Run.after (evs : List Event) (r : Run) : Run :=
  { trace := evs ++ r.trace, outcome := r.outcome }

/-- The function `newMeterProvider` (lines 278-289). -/
def newMeterProvider (cfg : Config) (env : Env) : Except String MeterProvider :=
  if !cfg.EnableMeterProvider cfg then
    .ok .noop
  else
    match env.prometheusNew with
    | some err => .error (Errorf "new prometheus exporter: :%w" [.err err])
    | none => .ok .sdk

/-- The function `newTraceProvider` (lines 253-276). -/
def newTraceProvider (cfg : Config) (env : Env) : Except String TracerProvider :=
  if !cfg.EnableTraceProvider cfg then
    .ok .noop
  else
    let endpoint := Sprintf "%s:%d" [.str cfg.TraceHost, .int cfg.TracePort]
    match env.otlptracegrpcNew endpoint with
    | some err => .error err
    | none => .ok (.sdk endpoint)

/-- The address `serveMetrics` listens on (line 242). -/
def serveMetricsAddr (cfg : Config) : String :=
  Sprintf "%s:%d" [.str cfg.MetricsHost, .int cfg.MetricsPort]

/-- The listen addresses handed to `libp2p.ListenAddrStrings` (lines 210-214). -/
def listenAddrs (cfg : Config) : List String :=
  [ Sprintf "/ip4/%s/tcp/%d" [.str cfg.Host, .int cfg.Port],
    Sprintf "/ip4/%s/udp/%d/quic-v1" [.str cfg.Host, .int cfg.Port],
    Sprintf "/ip4/%s/udp/%d/quic-v1/webtransport" [.str cfg.Host, .int cfg.Port] ]

/-- The DHT configuration built at lines 178-187. -/
def buildDHTConfig (cfg : Config) (meterProvider : MeterProvider)
    (traceProvider : TracerProvider) : DHTConfig :=
  { ProtocolID := cfg.ProtocolID
    MeterProvider := meterProvider
    TracerProvider := traceProvider
    NullDatastore := cfg.ProtocolID == ProtocolIPFS }

/-- Private key resolution (lines 189-205): the events of the block and either the
key or the error `daemonAction` returns. -/
def resolvePrivKey (cfg : Config) (env : Env) : List Event × Except String PrivKey :=
  if cfg.PrivateKey == "" then
    match env.GenerateEd25519Key with
    | .error err =>
      ([.GenerateEd25519Key false], .error (Errorf "generate new private key: %w" [.err err]))
    | .ok privKey => ([.GenerateEd25519Key true], .ok privKey)
  else
    match env.DecodeString cfg.PrivateKey with
    | .error err =>
      ([.DecodeString cfg.PrivateKey false],
        .error (Errorf "decode base64 private key: %w" [.err err]))
    | .ok privKeyDat =>
      match env.UnmarshalPrivateKey privKeyDat with
      | .error err =>
        ([.DecodeString cfg.PrivateKey true, .UnmarshalPrivateKey false],
          .error (Errorf "unmarshal private key: %w" [.err err]))
      | .ok privKey =>
        ([.DecodeString cfg.PrivateKey true, .UnmarshalPrivateKey true], .ok privKey)

/-- The log lines written after the host is created (lines 226-229). -/
def hostLogs (h : P2PHost) : List Event :=
  Event.slog LevelInfo "Created libp2p host" [("peerID", h.ID)] ::
    h.Addrs.enum.map (fun ia =>
      Event.slog LevelInfo (Sprintf "  [%d] %s" [.int (Int.ofNat ia.1), .str ia.2]) [])

/-- Bootstrap and the final wait (lines 231-238). -/
def bootstrapAndWait (env : Env) : Run :=
  match env.Bootstrap with
  | some err => { trace := [.Bootstrap false], outcome := .returned (some err) }
  | none =>
    if env.ctxCanceled then
      { trace := [.Bootstrap true, .slog LevelInfo "Initialized" [], .ctxDone],
        outcome := .returned none }
    else
      { trace := [.Bootstrap true, .slog LevelInfo "Initialized" []], outcome := .blocked }

/-- Host construction and what follows it (lines 207-238). -/
def startHost (cfg : Config) (env : Env) (privKey : PrivKey) (dhtConfig : DHTConfig) : Run :=
  match env.libp2pNew privKey (listenAddrs cfg) dhtConfig with
  | .error err =>
    { trace := [.libp2pNew privKey (listenAddrs cfg) dhtConfig false],
      outcome := .returned (some (Errorf "new libp2p host: %w" [.err err])) }
  | .ok h =>
    Run.after (.libp2pNew privKey (listenAddrs cfg) dhtConfig true :: hostLogs h)
      (bootstrapAndWait env)

/-- The start of the metrics server goroutine (lines 174-176). -/
def startMetricsServer (cfg : Config) : List Event :=
  if cfg.EnableTraceProvider cfg || cfg.EnableMeterProvider cfg then
    [.goServeMetrics (serveMetricsAddr cfg)]
  else []

/-- The two log calls that open `daemonAction` (lines 162-163); the second one
passes the redacted serialisation of the configuration. -/
def startLogs (cfg : Config) : List Event :=
  [ .slog LevelInfo "Starting musa daemon process with configuration:" [],
    .slog LevelDebug cfg.String [] ]

/-- The function `daemonAction` (lines 159-239) run with the process-wide
configuration `cfg` in the environment `env`. -/
def daemonAction (cfg : Config) (env : Env) : Run :=
  Run.after (startLogs cfg) <|
  match newMeterProvider cfg env with
  | .error err =>
    { trace := [.newMeterProvider false],
      outcome := .returned (some (Errorf "new meter provider: %w" [.err err])) }
  | .ok meterProvider =>
    Run.after [.newMeterProvider true] <|
    match newTraceProvider cfg env with
    | .error err =>
      { trace := [.newTraceProvider false],
        outcome := .returned (some (Errorf "new trace provider: %w" [.err err])) }
    | .ok traceProvider =>
      Run.after (.newTraceProvider true :: startMetricsServer cfg) <|
      let dhtConfig := buildDHTConfig cfg meterProvider traceProvider
      match resolvePrivKey cfg env with
      | (evs, .error err) => { trace := evs, outcome := .returned (some err) }
      | (evs, .ok privKey) => Run.after evs (startHost cfg env privKey dhtConfig)

/-- The exit status of the process for an outcome of the action (lines 153-156):
1 when the action returned an error, 0 when it returned `nil`; no exit while the
action is blocked. -/
def exitStatus : Outcome → Option Nat
  | .returned (some _) => some 1
  | .returned none => some 0
  | .blocked => none

/-- The exit status of `main` when `app.RunContext` runs the action. -/
def mainExit (cfg : Config) (env : Env) : Option Nat :=
  exitStatus (daemonAction cfg env).outcome

/-- The start-up steps of a run. -/
inductive Step where
  | meterProvider | traceProvider | metricsServer
  | generateKey | decodeKey | unmarshalKey
  | host | bootstrap | wait
deriving DecidableEq, Repr

/-- The start-up step an event belongs to (log lines belong to none). -/
def Event.step : Event → Option Step
  | .slog _ _ _ => none
  | .newMeterProvider _ => some .meterProvider
  | .newTraceProvider _ => some .traceProvider
  | .goServeMetrics _ => some .metricsServer
  | .GenerateEd25519Key _ => some .generateKey
  | .DecodeString _ _ => some .decodeKey
  | .UnmarshalPrivateKey _ => some .unmarshalKey
  | .libp2pNew _ _ _ _ => some .host
  | .Bootstrap _ => some .bootstrap
  | .ctxDone => some .wait

/-- Whether an event records a step that failed. -/
def Event.failed : Event → Bool
  | .newMeterProvider ok => !ok
  | .newTraceProvider ok => !ok
  | .GenerateEd25519Key ok => !ok
  | .DecodeString _ ok => !ok
  | .UnmarshalPrivateKey ok => !ok
  | .libp2pNew _ _ _ ok => !ok
  | .Bootstrap ok => !ok
  | _ => false

/-- No event of the list records a failed step. -/
def AllOk (l : List Event) : Prop :=
  ∀ ev ∈ l, ev.failed = false

/-- The sequence of start-up steps of a run. -/
def Run.steps (r : Run) : List Step :=
  r.trace.filterMap Event.step

/-- The components of the design a step belongs to. -/
inductive Phase where
  | identity | telemetry | metricsServer | host | bootstrap | wait
deriving DecidableEq, Repr

/-- The component a step belongs to. -/
def Step.phase : Step → Phase
  | .meterProvider => .telemetry
  | .traceProvider => .telemetry
  | .metricsServer => .metricsServer
  | .generateKey => .identity
  | .decodeKey => .identity
  | .unmarshalKey => .identity
  | .host => .host
  | .bootstrap => .bootstrap
  | .wait => .wait

/-- Position of a component in the order the specification gives: identity,
telemetry, metrics server, host, bootstrap, wait. -/
def Phase.specRank : Phase → Nat
  | .identity => 0
  | .telemetry => 1
  | .metricsServer => 2
  | .host => 3
  | .bootstrap => 4
  | .wait => 5

/-- Position of a component in the order of the statements of `daemonAction`:
telemetry, metrics server, identity, host, bootstrap, wait. -/
def Phase.codeRank : Phase → Nat
  | .telemetry => 0
  | .metricsServer => 1
  | .identity => 2
  | .host => 3
  | .bootstrap => 4
  | .wait => 5

/-- The steps of a run of `daemonAction` in which nothing fails and the lifetime
context is canceled, read off the statements of the function. -/
def fullSteps (cfg : Config) : List Step :=
  [.meterProvider, .traceProvider] ++
  (if cfg.EnableTraceProvider cfg || cfg.EnableMeterProvider cfg then [.metricsServer] else []) ++
  (if cfg.PrivateKey == "" then [.generateKey] else [.decodeKey, .unmarshalKey]) ++
  [.host, .bootstrap, .wait]

/-! ## The signal listener of `main` (lines 142-151) -/

/-- The signals `main` asks to be notified of (`os.Interrupt` is `SIGINT`). -/
inductive Signal where
  | SIGINT | SIGTERM
deriving DecidableEq, Repr

/-- The method `Signal.String` of the two signals. -/
def Signal.String : Signal → String
  | .SIGINT => "interrupt"
  | .SIGTERM => "terminated"

/-- Program counter of the listener goroutine: before the receive of line 147,
before the log call of line 148 (holding the received signal), before `signal.Stop`
(line 149), before `cancel()` (line 150), and finished. -/
inductive ListenerPc where
  | receive
  | log (sig : Signal)
  | stop
  | cancel
  | done
deriving DecidableEq, Repr

/-- The state of the process as far as signals are concerned: what is shared between
the runtime's signal delivery and the listener, and whether the process is still
alive. -/
structure Shutdown where
  /-- Whether `sigs` is registered with `signal.Notify`. -/
  notifying : Bool
  /-- Content of the channel `sigs`, which has capacity 1. -/
  sigs : Option Signal
  pc : ListenerPc
  /-- The signal attribute of each "Received signal - Stopping..." log entry. -/
  logged : List String
  /-- How many times `cancel()` has been called. -/
  cancelCalls : Nat
  /-- Whether the lifetime context is canceled. -/
  ctxCanceled : Bool
  /-- Whether the process has been terminated by the default action of a signal. -/
  killed : Bool
deriving DecidableEq, Repr

/-- The state after lines 142-146: channel empty, notification registered, context
live, listener started. -/
def Shutdown.init : Shutdown :=
  { notifying := true, sigs := none, pc := .receive, logged := [],
    cancelCalls := 0, ctxCanceled := false, killed := false }

/-- What can happen next: the operating system delivers a termination signal to the
process, or the listener goroutine executes its next statement. -/
inductive Action where
  | deliver (sig : Signal)
  | listener
deriving DecidableEq, Repr

/-- One transition.  While the channel is registered, a delivered signal is relayed
to `sigs` by a send that does not block (a full channel drops it).  After
`signal.Stop` no channel is registered for SIGINT and SIGTERM, the runtime is back
to their default action, and a delivered signal terminates the process.  The
listener blocks on the receive while the channel is empty and otherwise executes
lines 147-150 one statement at a time; the goroutine has no loop, so it runs them
once.  Nothing happens in a terminated process. -/
def Shutdown.step (s : Shutdown) (a : Action) : Shutdown :=
  if s.killed then s
  else
    match a with
    | .deliver sig =>
      if s.notifying then
        match s.sigs with
        | none => { s with sigs := some sig }
        | some _ => s
      else { s with killed := true }
    | .listener =>
      match s.pc with
      | .receive =>
        match s.sigs with
        | some sig => { s with sigs := none, pc := .log sig }
        | none => s
      | .log sig => { s with logged := s.logged ++ [sig.String], pc := .stop }
      | .stop => { s with notifying := false, pc := .cancel }
      | .cancel =>
        { s with cancelCalls := s.cancelCalls + 1, ctxCanceled := true, pc := .done }
      | .done => s

/-- The state after a schedule of deliveries and listener steps. -/
def Shutdown.run (s : Shutdown) (sched : List Action) : Shutdown :=
  sched.foldl Shutdown.step s

/-- The first signal a schedule delivers, if it delivers one. -/
def firstDelivered : List Action → Option Signal
  | [] => none
  | .deliver sig :: _ => some sig
  | .listener :: rest => firstDelivered rest

/-- What holds of a state reached from `Shutdown.init` when `f` is the first signal
delivered so far: at each program counter of the listener, the values of the
channel, the log, the cancel count and the context; the process can have been
terminated only after `signal.Stop`. -/
def Shutdown.Inv (f : Option Signal) (s : Shutdown) : Prop :=
  match s.pc with
  | .receive =>
    s.killed = false ∧ s.notifying = true ∧ s.sigs = f ∧ s.logged = [] ∧
      s.cancelCalls = 0 ∧ s.ctxCanceled = false
  | .log sig =>
    f = some sig ∧ s.killed = false ∧ s.notifying = true ∧ s.logged = [] ∧
      s.cancelCalls = 0 ∧ s.ctxCanceled = false
  | .stop =>
    (∃ sig, f = some sig ∧ s.logged = [sig.String]) ∧ s.killed = false ∧
      s.notifying = true ∧ s.cancelCalls = 0 ∧ s.ctxCanceled = false
  | .cancel =>
    (∃ sig, f = some sig ∧ s.logged = [sig.String]) ∧ s.notifying = false ∧
      s.cancelCalls = 0 ∧ s.ctxCanceled = false
  | .done =>
    (∃ sig, f = some sig ∧ s.logged = [sig.String]) ∧ s.notifying = false ∧
      s.cancelCalls = 1 ∧ s.ctxCanceled = true

/-- Four listener steps: enough for the goroutine to run lines 147-150 to the end. -/
def listenerRuns : List Action :=
  [.listener, .listener, .listener, .listener]

/-! ## The shape of the redacted serialisation -/

/-- The characters that delimit the members of the JSON object: the double quote,
colon, comma and the two braces. -/
def isStructural (ch : Char) : Bool :=
  ch == dquote || ch == ':' || ch == ',' || ch == '\x7b' || ch == '\x7d'

/-- A run of text followed by delimiter-and-text pairs, written out in sequence. -/
def interleave : List Char → List (Char × List Char) → List Char
  | p, [] => p
  | p, (d, q) :: rest => p ++ d :: interleave q rest

/-- The text-carrying parts of `c.String()`: the nine field names, the decimal
renderings of the four integer fields and the escaped values of the four string
fields other than `PrivateKey`. -/
def Config.visibleParts (c : Config) : List (List Char) :=
  [ "Host".data, escapeString c.Host,
    "Port".data, (formatInt c.Port).data,
    "PrivateKey".data,
    "ProtocolID".data, escapeString c.ProtocolID,
    "MetricsHost".data, escapeString c.MetricsHost,
    "MetricsPort".data, (formatInt c.MetricsPort).data,
    "TraceHost".data, escapeString c.TraceHost,
    "TracePort".data, (formatInt c.TracePort).data,
    "LogLevel".data, (formatInt c.LogLevel).data ]

/-- The redacted serialisation cut at its delimiters. -/
def Config.redactedLayout (c : Config) : List (Char × List Char) :=
  [ ('\x7b', []),
    (dquote, "Host".data), (dquote, []), (':', []),
    (dquote, escapeString c.Host), (dquote, []), (',', []),
    (dquote, "Port".data), (dquote, []), (':', (formatInt c.Port).data), (',', []),
    (dquote, "PrivateKey".data), (dquote, []), (':', []),
    (dquote, []), (dquote, []), (',', []),
    (dquote, "ProtocolID".data), (dquote, []), (':', []),
    (dquote, escapeString c.ProtocolID), (dquote, []), (',', []),
    (dquote, "MetricsHost".data), (dquote, []), (':', []),
    (dquote, escapeString c.MetricsHost), (dquote, []), (',', []),
    (dquote, "MetricsPort".data), (dquote, []), (':', (formatInt c.MetricsPort).data),
    (',', []),
    (dquote, "TraceHost".data), (dquote, []), (':', []),
    (dquote, escapeString c.TraceHost), (dquote, []), (',', []),
    (dquote, "TracePort".data), (dquote, []), (':', (formatInt c.TracePort).data),
    (',', []),
    (dquote, "LogLevel".data), (dquote, []), (':', (formatInt c.LogLevel).data),
    ('\x7d', []) ]

/-! ## Concrete inputs -/

/-- An environment in which every call succeeds and the context is canceled. -/
def envOk : Env :=
  { prometheusNew := none
    otlptracegrpcNew := fun _ => none
    GenerateEd25519Key := .ok { raw := [1, 2, 3] }
    DecodeString := fun _ => .ok [8, 1, 18, 64]
    UnmarshalPrivateKey := fun raw => .ok { raw := raw }
    libp2pNew := fun _ addrs _ => .ok { ID := "12D3KooW", Addrs := addrs }
    Bootstrap := none
    ctxCanceled := true }

/-- As `envOk`, but the base64 decoder rejects its input. -/
def envDecodeFails : Env :=
  { envOk with DecodeString := fun _ => .error "illegal base64 data at input byte 4" }

/-- As `envOk`, but the decoded bytes are not a key. -/
def envUnmarshalFails : Env :=
  { envOk with UnmarshalPrivateKey := fun _ => .error "unexpected EOF" }

/-- As `envOk`, but the DHT bootstrap fails. -/
def envBootstrapFails : Env :=
  { envOk with Bootstrap := some "failed to dial" }

/-- Tracing configured, metrics not configured. -/
def cfgTraceOnly : Config :=
  { cfgInit with TraceHost := "127.0.0.1", TracePort := 4317 }

/-- Metrics configured, private key with base64 padding. -/
def cfgPaddedKey : Config :=
  { cfgInit with MetricsHost := "127.0.0.1", MetricsPort := 9090, PrivateKey := "CAES=" }

/-- A configuration whose private key is the text of a field name. -/
def cfgKeyHost : Config :=
  { cfgInit with PrivateKey := "Host" }

/-- A configuration with a base64 private key that occurs nowhere else. -/
def cfgKeyPlain : Config :=
  { cfgInit with PrivateKey := "CAESQA" }

/-- The default configuration with port 4001. -/
def cfgPort4001 : Config :=
  { cfgInit with Port := 4001 }

/-- A receiver with metrics and tracing configured. -/
def cfgTelemetry : Config :=
  { cfgInit with MetricsHost := "0.0.0.0", MetricsPort := 9090,
                 TraceHost := "collector", TracePort := 4317 }

/-! ## Formatting lemmas -/

theorem formatInt_eq_toString (i : Int) : formatInt i = toString i := by
  cases i with
  | ofNat n => rfl
  | negSucc n => rfl

theorem listenAddrs_eq (cfg : Config) :
    listenAddrs cfg =
      [ "/ip4/" ++ cfg.Host ++ "/tcp/" ++ toString cfg.Port,
        "/ip4/" ++ cfg.Host ++ "/udp/" ++ toString cfg.Port ++ "/quic-v1",
        "/ip4/" ++ cfg.Host ++ "/udp/" ++ toString cfg.Port ++ "/quic-v1/webtransport" ] := by
  have h1 : Sprintf "/ip4/%s/tcp/%d" [.str cfg.Host, .int cfg.Port]
      = "/ip4/" ++ cfg.Host ++ "/tcp/" ++ formatInt cfg.Port := by
    apply String.ext
    simp [Sprintf, sprintfAux]
  have h2 : Sprintf "/ip4/%s/udp/%d/quic-v1" [.str cfg.Host, .int cfg.Port]
      = "/ip4/" ++ cfg.Host ++ "/udp/" ++ formatInt cfg.Port ++ "/quic-v1" := by
    apply String.ext
    simp [Sprintf, sprintfAux]
  have h3 : Sprintf "/ip4/%s/udp/%d/quic-v1/webtransport" [.str cfg.Host, .int cfg.Port]
      = "/ip4/" ++ cfg.Host ++ "/udp/" ++ formatInt cfg.Port ++ "/quic-v1/webtransport" := by
    apply String.ext
    simp [Sprintf, sprintfAux]
  simp only [listenAddrs, h1, h2, h3, formatInt_eq_toString]

/-! ## Flags -/

/-- No flag of the application stores into the `PrivateKey` field. -/
theorem setting_keeps_PrivateKey (s : Setting) (h : s.Declared) (cfg : Config) :
    (s.apply cfg).PrivateKey = cfg.PrivateKey := by
  cases s with
  | string f v =>
    simp only [Setting.Declared, stringFlags, List.mem_cons, List.mem_singleton,
      List.not_mem_nil, or_false] at h
    rcases h with h | h | h | h | h <;> subst h <;> rfl
  | int f v =>
    simp only [Setting.Declared, intFlags, List.mem_cons, List.mem_singleton,
      List.not_mem_nil, or_false] at h
    rcases h with h | h | h | h <;> subst h <;> rfl

/-- Whatever flags and environment variables are supplied, `PrivateKey` keeps its
initial value. -/
theorem applySettings_keeps_PrivateKey (ss : List Setting) (h : ∀ s ∈ ss, s.Declared)
    (cfg : Config) : (applySettings cfg ss).PrivateKey = cfg.PrivateKey := by
  induction ss generalizing cfg with
  | nil => rfl
  | cons s ss ih =>
    have hs := setting_keeps_PrivateKey s (h s (List.mem_cons_self _ _)) cfg
    have := ih (fun t ht => h t (List.mem_cons_of_mem _ ht)) (s.apply cfg)
    simpa [applySettings, hs] using this

/-- C1, evaluated on the code: supplying the `private-key` flag, or the variable
MUSA_PRIVATE_KEY, with the value "CAESQA" on the initial configuration stores the
value in `Host` and leaves `PrivateKey` empty. -/
theorem private_key_flag_writes_Host :
    (applyStringArg "private-key" "CAESQA" cfgInit).Host = "CAESQA" ∧
    (applyStringArg "private-key" "CAESQA" cfgInit).PrivateKey = "" ∧
    (applyStringEnv "MUSA_PRIVATE_KEY" "CAESQA" cfgInit).Host = "CAESQA" ∧
    (applyStringEnv "MUSA_PRIVATE_KEY" "CAESQA" cfgInit).PrivateKey = "" ∧
    cfgInit.Host = "127.0.0.1" := by
  decide

/-- The `private-key` flag shares `&cfg.Host` with the `host` flag and is applied
after it: a value supplied in MUSA_HOST is overwritten by the default of
`private-key`, while `--host` on the command line, parsed after all flags have been
applied, is kept. -/
theorem MUSA_HOST_overwritten :
    (applyStringEnv "MUSA_HOST" "127.0.0.9" cfgInit).Host = "127.0.0.1" ∧
    (applyStringArg "host" "127.0.0.9" cfgInit).Host = "127.0.0.9" := by
  decide

/-! ## The enable predicates -/

/-- C2, evaluated on the code: with the process-wide variable at its initial value,
a receiver that has metrics and trace host and port set gets `false` from both
predicates. -/
theorem enable_ignores_receiver :
    cfgTelemetry.MetricsHost ≠ "" ∧ cfgTelemetry.MetricsPort ≠ 0 ∧
    cfgTelemetry.TraceHost ≠ "" ∧ cfgTelemetry.TracePort ≠ 0 ∧
    cfgTelemetry.EnableMeterProvider cfgInit = false ∧
    cfgTelemetry.EnableTraceProvider cfgInit = false := by
  decide

/-- The predicates decide on the process-wide variable. -/
theorem enable_reads_global (c cfg : Config) :
    (c.EnableMeterProvider cfg = true ↔ cfg.MetricsHost ≠ "" ∧ cfg.MetricsPort ≠ 0) ∧
    (c.EnableTraceProvider cfg = true ↔ cfg.TraceHost ≠ "" ∧ cfg.TracePort ≠ 0) := by
  simp [Config.EnableMeterProvider, Config.EnableTraceProvider]

/-! ## The metrics server -/

/-- C3, evaluated on the code: with tracing configured and metrics not configured,
`daemonAction` starts `serveMetrics`, which listens on ":0". -/
theorem metrics_server_started_for_trace_only :
    cfgTraceOnly.MetricsHost = "" ∧ cfgTraceOnly.MetricsPort = 0 ∧
    cfgTraceOnly.EnableMeterProvider cfgTraceOnly = false ∧
    Event.goServeMetrics ":0" ∈ (daemonAction cfgTraceOnly envOk).trace := by
  decide

/-! ## The runs of `daemonAction`, case by case -/

/-- Case analysis on private key resolution when it ends in an error. -/
theorem resolvePrivKey_error {cfg : Config} {env : Env} {evs : List Event} {err : String}
    (h : resolvePrivKey cfg env = (evs, .error err)) :
    (cfg.PrivateKey = "" ∧ evs = [.GenerateEd25519Key false] ∧
      ∃ e, env.GenerateEd25519Key = .error e ∧
        err = Errorf "generate new private key: %w" [.err e]) ∨
    (cfg.PrivateKey ≠ "" ∧ evs = [.DecodeString cfg.PrivateKey false] ∧
      ∃ e, env.DecodeString cfg.PrivateKey = .error e ∧
        err = Errorf "decode base64 private key: %w" [.err e]) ∨
    (cfg.PrivateKey ≠ "" ∧
      evs = [.DecodeString cfg.PrivateKey true, .UnmarshalPrivateKey false] ∧
      ∃ dat e, env.DecodeString cfg.PrivateKey = .ok dat ∧
        env.UnmarshalPrivateKey dat = .error e ∧
        err = Errorf "unmarshal private key: %w" [.err e]) := by
  unfold resolvePrivKey at h
  by_cases hk : cfg.PrivateKey = ""
  · simp only [hk, beq_self_eq_true, if_true] at h
    cases hg : env.GenerateEd25519Key with
    | error e =>
      simp only [hg, Prod.mk.injEq, Except.error.injEq] at h
      exact Or.inl ⟨hk, h.1.symm, e, rfl, h.2.symm⟩
    | ok k => simp [hg] at h
  · have hk' : (cfg.PrivateKey == "") = false := by simpa using hk
    simp only [hk', Bool.false_eq_true, if_false] at h
    cases hd : env.DecodeString cfg.PrivateKey with
    | error e =>
      simp only [hd, Prod.mk.injEq, Except.error.injEq] at h
      exact Or.inr (Or.inl ⟨hk, h.1.symm, e, rfl, h.2.symm⟩)
    | ok dat =>
      simp only [hd] at h
      cases hu : env.UnmarshalPrivateKey dat with
      | error e =>
        simp only [hu, Prod.mk.injEq, Except.error.injEq] at h
        exact Or.inr (Or.inr ⟨hk, h.1.symm, dat, e, rfl, hu, h.2.symm⟩)
      | ok k => simp [hu] at h

/-- Case analysis on private key resolution when it yields a key. -/
theorem resolvePrivKey_ok {cfg : Config} {env : Env} {evs : List Event} {key : PrivKey}
    (h : resolvePrivKey cfg env = (evs, .ok key)) :
    (cfg.PrivateKey = "" ∧ evs = [.GenerateEd25519Key true] ∧
      env.GenerateEd25519Key = .ok key) ∨
    (cfg.PrivateKey ≠ "" ∧
      evs = [.DecodeString cfg.PrivateKey true, .UnmarshalPrivateKey true] ∧
      ∃ dat, env.DecodeString cfg.PrivateKey = .ok dat ∧
        env.UnmarshalPrivateKey dat = .ok key) := by
  unfold resolvePrivKey at h
  by_cases hk : cfg.PrivateKey = ""
  · simp only [hk, beq_self_eq_true, if_true] at h
    cases hg : env.GenerateEd25519Key with
    | error e => simp [hg] at h
    | ok k =>
      simp only [hg, Prod.mk.injEq, Except.ok.injEq] at h
      exact Or.inl ⟨hk, h.1.symm, by rw [h.2]⟩
  · have hk' : (cfg.PrivateKey == "") = false := by simpa using hk
    simp only [hk', Bool.false_eq_true, if_false] at h
    cases hd : env.DecodeString cfg.PrivateKey with
    | error e => simp [hd] at h
    | ok dat =>
      simp only [hd] at h
      cases hu : env.UnmarshalPrivateKey dat with
      | error e => simp [hu] at h
      | ok k =>
        simp only [hu, Prod.mk.injEq, Except.ok.injEq] at h
        exact Or.inr ⟨hk, h.1.symm, dat, rfl, by rw [hu, h.2]⟩

/-- Every run of `daemonAction` has one of seven shapes, one per return statement
and one for the run that stays blocked on the lifetime context. -/
theorem daemonAction_cases (cfg : Config) (env : Env) (P : Run → Prop)
    (hMeter : ∀ err, newMeterProvider cfg env = .error err →
      P { trace := startLogs cfg ++ [.newMeterProvider false],
          outcome := .returned (some (Errorf "new meter provider: %w" [.err err])) })
    (hTrace : ∀ mp err, newMeterProvider cfg env = .ok mp →
      newTraceProvider cfg env = .error err →
      P { trace := startLogs cfg ++ [.newMeterProvider true, .newTraceProvider false],
          outcome := .returned (some (Errorf "new trace provider: %w" [.err err])) })
    (hKey : ∀ mp tp evs err, newMeterProvider cfg env = .ok mp →
      newTraceProvider cfg env = .ok tp → resolvePrivKey cfg env = (evs, .error err) →
      P { trace := startLogs cfg ++ [.newMeterProvider true, .newTraceProvider true] ++
            startMetricsServer cfg ++ evs,
          outcome := .returned (some err) })
    (hHost : ∀ mp tp evs key err, newMeterProvider cfg env = .ok mp →
      newTraceProvider cfg env = .ok tp → resolvePrivKey cfg env = (evs, .ok key) →
      env.libp2pNew key (listenAddrs cfg) (buildDHTConfig cfg mp tp) = .error err →
      P { trace := startLogs cfg ++ [.newMeterProvider true, .newTraceProvider true] ++
            startMetricsServer cfg ++ evs ++
            [.libp2pNew key (listenAddrs cfg) (buildDHTConfig cfg mp tp) false],
          outcome := .returned (some (Errorf "new libp2p host: %w" [.err err])) })
    (hBoot : ∀ mp tp evs key h err, newMeterProvider cfg env = .ok mp →
      newTraceProvider cfg env = .ok tp → resolvePrivKey cfg env = (evs, .ok key) →
      env.libp2pNew key (listenAddrs cfg) (buildDHTConfig cfg mp tp) = .ok h →
      env.Bootstrap = some err →
      P { trace := startLogs cfg ++ [.newMeterProvider true, .newTraceProvider true] ++
            startMetricsServer cfg ++ evs ++
            [.libp2pNew key (listenAddrs cfg) (buildDHTConfig cfg mp tp) true] ++
            hostLogs h ++ [.Bootstrap false],
          outcome := .returned (some err) })
    (hDone : ∀ mp tp evs key h, newMeterProvider cfg env = .ok mp →
      newTraceProvider cfg env = .ok tp → resolvePrivKey cfg env = (evs, .ok key) →
      env.libp2pNew key (listenAddrs cfg) (buildDHTConfig cfg mp tp) = .ok h →
      env.Bootstrap = none → env.ctxCanceled = true →
      P { trace := startLogs cfg ++ [.newMeterProvider true, .newTraceProvider true] ++
            startMetricsServer cfg ++ evs ++
            [.libp2pNew key (listenAddrs cfg) (buildDHTConfig cfg mp tp) true] ++
            hostLogs h ++ [.Bootstrap true, .slog LevelInfo "Initialized" [], .ctxDone],
          outcome := .returned none })
    (hBlocked : ∀ mp tp evs key h, newMeterProvider cfg env = .ok mp →
      newTraceProvider cfg env = .ok tp → resolvePrivKey cfg env = (evs, .ok key) →
      env.libp2pNew key (listenAddrs cfg) (buildDHTConfig cfg mp tp) = .ok h →
      env.Bootstrap = none → env.ctxCanceled = false →
      P { trace := startLogs cfg ++ [.newMeterProvider true, .newTraceProvider true] ++
            startMetricsServer cfg ++ evs ++
            [.libp2pNew key (listenAddrs cfg) (buildDHTConfig cfg mp tp) true] ++
            hostLogs h ++ [.Bootstrap true, .slog LevelInfo "Initialized" []],
          outcome := .blocked }) :
    P (daemonAction cfg env) := by
  unfold daemonAction
  cases hm : newMeterProvider cfg env with
  | error err => simpa [Run.after] using hMeter err hm
  | ok mp =>
    cases ht : newTraceProvider cfg env with
    | error err => simpa [Run.after] using hTrace mp err hm ht
    | ok tp =>
      rcases hr : resolvePrivKey cfg env with ⟨evs, res⟩
      cases res with
      | error err => simpa [Run.after] using hKey mp tp evs err hm ht hr
      | ok key =>
        cases hl : env.libp2pNew key (listenAddrs cfg) (buildDHTConfig cfg mp tp) with
        | error err =>
          simpa [Run.after, startHost, hl] using hHost mp tp evs key err hm ht hr hl
        | ok h =>
          cases hb : env.Bootstrap with
          | some err =>
            simpa [Run.after, startHost, hl, bootstrapAndWait, hb]
              using hBoot mp tp evs key h err hm ht hr hl hb
          | none =>
            cases hc : env.ctxCanceled with
            | true =>
              simpa [Run.after, startHost, hl, bootstrapAndWait, hb, hc]
                using hDone mp tp evs key h hm ht hr hl hb hc
            | false =>
              simpa [Run.after, startHost, hl, bootstrapAndWait, hb, hc]
                using hBlocked mp tp evs key h hm ht hr hl hb hc

/-! ## Steps of a run -/

theorem steps_startLogs (cfg : Config) : (startLogs cfg).filterMap Event.step = [] := rfl

theorem steps_hostLogs (h : P2PHost) : (hostLogs h).filterMap Event.step = [] := by
  simp [hostLogs, List.filterMap_map, Event.step, Function.comp_def]

theorem steps_startMetricsServer (cfg : Config) :
    (startMetricsServer cfg).filterMap Event.step =
      if cfg.EnableTraceProvider cfg || cfg.EnableMeterProvider cfg then [.metricsServer]
      else [] := by
  unfold startMetricsServer
  split <;> rfl

theorem failed_hostLogs {h : P2PHost} {ev : Event} (hm : ev ∈ hostLogs h) :
    ev.failed = false := by
  simp only [hostLogs, List.mem_cons, List.mem_map] at hm
  rcases hm with rfl | ⟨ia, _, rfl⟩ <;> rfl

theorem failed_startMetricsServer {cfg : Config} {ev : Event}
    (hm : ev ∈ startMetricsServer cfg) : ev.failed = false := by
  unfold startMetricsServer at hm
  split at hm
  · simp only [List.mem_singleton] at hm
    subst hm; rfl
  · simp at hm

theorem failed_startLogs {cfg : Config} {ev : Event} (hm : ev ∈ startLogs cfg) :
    ev.failed = false := by
  simp only [startLogs, List.mem_cons, List.mem_singleton, List.not_mem_nil, or_false] at hm
  rcases hm with rfl | rfl <;> rfl

theorem step_of_mem_resolvePrivKey {cfg : Config} {env : Env} {ev : Event}
    (hm : ev ∈ (resolvePrivKey cfg env).1) :
    ev.step = some .generateKey ∨ ev.step = some .decodeKey ∨
      ev.step = some .unmarshalKey := by
  rcases hr : resolvePrivKey cfg env with ⟨evs, res⟩
  rw [hr] at hm
  cases res with
  | error err =>
    rcases resolvePrivKey_error hr with ⟨_, rfl, _⟩ | ⟨_, rfl, _⟩ | ⟨_, rfl, _⟩ <;>
      simp only [List.mem_cons, List.mem_singleton, List.not_mem_nil, or_false] at hm
    · subst hm; exact Or.inl rfl
    · subst hm; exact Or.inr (Or.inl rfl)
    · rcases hm with rfl | rfl
      · exact Or.inr (Or.inl rfl)
      · exact Or.inr (Or.inr rfl)
  | ok key =>
    rcases resolvePrivKey_ok hr with ⟨_, rfl, _⟩ | ⟨_, rfl, _⟩ <;>
      simp only [List.mem_cons, List.mem_singleton, List.not_mem_nil, or_false] at hm
    · subst hm; exact Or.inl rfl
    · rcases hm with rfl | rfl
      · exact Or.inr (Or.inl rfl)
      · exact Or.inr (Or.inr rfl)

theorem step_of_mem_startMetricsServer {cfg : Config} {ev : Event}
    (hm : ev ∈ startMetricsServer cfg) : ev.step = some .metricsServer := by
  unfold startMetricsServer at hm
  split at hm
  · simp only [List.mem_singleton] at hm
    subst hm; rfl
  · simp at hm

theorem step_of_mem_hostLogs {h : P2PHost} {ev : Event} (hm : ev ∈ hostLogs h) :
    ev.step = none := by
  simp only [hostLogs, List.mem_cons, List.mem_map] at hm
  rcases hm with rfl | ⟨ia, _, rfl⟩ <;> rfl

theorem step_of_mem_startLogs {cfg : Config} {ev : Event} (hm : ev ∈ startLogs cfg) :
    ev.step = none := by
  simp only [startLogs, List.mem_cons, List.mem_singleton, List.not_mem_nil, or_false] at hm
  rcases hm with rfl | rfl <;> rfl

/-- The events of a run that do not construct the host. -/
theorem not_host_of_mem {cfg : Config} {env : Env} {evs : List Event}
    {res : Except String PrivKey} (hr : resolvePrivKey cfg env = (evs, res)) {ev : Event}
    (hm : ev ∈ startLogs cfg ∨ ev ∈ startMetricsServer cfg ∨ ev ∈ evs) :
    ev.step ≠ some .host := by
  rcases hm with hm | hm | hm
  · rw [step_of_mem_startLogs hm]; simp
  · rw [step_of_mem_startMetricsServer hm]; simp
  · have : ev ∈ (resolvePrivKey cfg env).1 := by rw [hr]; exact hm
    rcases step_of_mem_resolvePrivKey this with h | h | h <;> rw [h] <;> simp

/-! ## Listen addresses -/

/-- C6: every host construction event of a run of `daemonAction` carries exactly the
three listen addresses "/ip4/h/tcp/p", "/ip4/h/udp/p/quic-v1" and
"/ip4/h/udp/p/quic-v1/webtransport", in this order, where h is the configured host
and p the decimal rendering of the configured port. -/
theorem listen_addrs_passed_to_host (cfg : Config) (env : Env) (key : PrivKey)
    (addrs : List String) (dc : DHTConfig) (ok : Bool)
    (hm : Event.libp2pNew key addrs dc ok ∈ (daemonAction cfg env).trace) :
    addrs =
      [ "/ip4/" ++ cfg.Host ++ "/tcp/" ++ toString cfg.Port,
        "/ip4/" ++ cfg.Host ++ "/udp/" ++ toString cfg.Port ++ "/quic-v1",
        "/ip4/" ++ cfg.Host ++ "/udp/" ++ toString cfg.Port ++ "/quic-v1/webtransport" ] := by
  rw [← listenAddrs_eq]
  revert hm
  refine daemonAction_cases cfg env
    (fun r => Event.libp2pNew key addrs dc ok ∈ r.trace → addrs = listenAddrs cfg)
    ?_ ?_ ?_ ?_ ?_ ?_ ?_
  · intro err _ hm
    simp [startLogs] at hm
  · intro mp err _ _ hm
    simp [startLogs] at hm
  · intro mp tp evs err _ _ hr hm
    simp only [List.mem_append, List.mem_cons, List.mem_singleton, List.not_mem_nil,
      or_false, reduceCtorEq, false_or, or_assoc] at hm
    exact absurd rfl (not_host_of_mem hr hm)
  · intro mp tp evs k err _ _ hr _ hm
    simp only [List.mem_append, List.mem_cons, List.mem_singleton, List.not_mem_nil,
      or_false, reduceCtorEq, false_or, or_assoc, Event.libp2pNew.injEq] at hm
    rcases hm with hm | hm | hm | hm
    · exact absurd rfl (not_host_of_mem hr (Or.inl hm))
    · exact absurd rfl (not_host_of_mem hr (Or.inr (Or.inl hm)))
    · exact absurd rfl (not_host_of_mem hr (Or.inr (Or.inr hm)))
    · exact hm.2.1
  · intro mp tp evs k h err _ _ hr _ _ hm
    simp only [List.mem_append, List.mem_cons, List.mem_singleton, List.not_mem_nil,
      or_false, reduceCtorEq, false_or, or_assoc, Event.libp2pNew.injEq] at hm
    rcases hm with hm | hm | hm | hm | hm
    · exact absurd rfl (not_host_of_mem hr (Or.inl hm))
    · exact absurd rfl (not_host_of_mem hr (Or.inr (Or.inl hm)))
    · exact absurd rfl (not_host_of_mem hr (Or.inr (Or.inr hm)))
    · exact hm.2.1
    · have := step_of_mem_hostLogs hm
      simp [Event.step] at this
  · intro mp tp evs k h _ _ hr _ _ _ hm
    simp only [List.mem_append, List.mem_cons, List.mem_singleton, List.not_mem_nil,
      or_false, reduceCtorEq, false_or, or_assoc, Event.libp2pNew.injEq] at hm
    rcases hm with hm | hm | hm | hm | hm
    · exact absurd rfl (not_host_of_mem hr (Or.inl hm))
    · exact absurd rfl (not_host_of_mem hr (Or.inr (Or.inl hm)))
    · exact absurd rfl (not_host_of_mem hr (Or.inr (Or.inr hm)))
    · exact hm.2.1
    · have := step_of_mem_hostLogs hm
      simp [Event.step] at this
  · intro mp tp evs k h _ _ hr _ _ _ hm
    simp only [List.mem_append, List.mem_cons, List.mem_singleton, List.not_mem_nil,
      or_false, reduceCtorEq, false_or, or_assoc, Event.libp2pNew.injEq] at hm
    rcases hm with hm | hm | hm | hm | hm
    · exact absurd rfl (not_host_of_mem hr (Or.inl hm))
    · exact absurd rfl (not_host_of_mem hr (Or.inr (Or.inl hm)))
    · exact absurd rfl (not_host_of_mem hr (Or.inr (Or.inr hm)))
    · exact hm.2.1
    · have := step_of_mem_hostLogs hm
      simp [Event.step] at this

/-- C6 at a concrete input: the default host with port 4001. -/
theorem listen_addrs_passed_to_host_witness :
    Event.libp2pNew (PrivKey.mk [1, 2, 3])
        ["/ip4/127.0.0.1/tcp/4001", "/ip4/127.0.0.1/udp/4001/quic-v1",
          "/ip4/127.0.0.1/udp/4001/quic-v1/webtransport"]
        (buildDHTConfig cfgPort4001 .noop .noop) true
      ∈ (daemonAction cfgPort4001 envOk).trace ∧
    ["/ip4/127.0.0.1/tcp/4001", "/ip4/127.0.0.1/udp/4001/quic-v1",
      "/ip4/127.0.0.1/udp/4001/quic-v1/webtransport"] =
      [ "/ip4/" ++ cfgPort4001.Host ++ "/tcp/" ++ toString cfgPort4001.Port,
        "/ip4/" ++ cfgPort4001.Host ++ "/udp/" ++ toString cfgPort4001.Port ++ "/quic-v1",
        "/ip4/" ++ cfgPort4001.Host ++ "/udp/" ++ toString cfgPort4001.Port ++
          "/quic-v1/webtransport" ] :=
  ⟨by decide,
    listen_addrs_passed_to_host cfgPort4001 envOk (PrivKey.mk [1, 2, 3]) _
      (buildDHTConfig cfgPort4001 .noop .noop) true (by decide)⟩

/-! ## The redacted serialisation -/

/-- C10: two configurations that agree on every field except `PrivateKey` have the
same `String()`, which is the JSON encoding of the configuration with `PrivateKey`
set to the empty string; and the call leaves the receiver, in particular its
`PrivateKey`, unchanged. -/
theorem String_independent_of_PrivateKey (c d : Config)
    (hHost : c.Host = d.Host) (hPort : c.Port = d.Port)
    (hProto : c.ProtocolID = d.ProtocolID)
    (hMH : c.MetricsHost = d.MetricsHost) (hMP : c.MetricsPort = d.MetricsPort)
    (hTH : c.TraceHost = d.TraceHost) (hTP : c.TracePort = d.TracePort)
    (hLL : c.LogLevel = d.LogLevel) :
    c.String = d.String ∧
    c.String = jsonMarshal { c with PrivateKey := "" } ∧
    c.StringCall.1 = c ∧ c.StringCall.1.PrivateKey = c.PrivateKey := by
  refine ⟨?_, rfl, rfl, rfl⟩
  cases c; cases d
  simp only at hHost hPort hProto hMH hMP hTH hTP hLL
  subst hHost hPort hProto hMH hMP hTH hTP hLL
  rfl

/-- C10 at a concrete input: two configurations that differ in the key only. -/
theorem String_independent_of_PrivateKey_witness :
    cfgKeyHost.PrivateKey ≠ cfgKeyPlain.PrivateKey ∧
    cfgKeyHost.String = cfgKeyPlain.String ∧
    cfgKeyHost.String = jsonMarshal { cfgKeyHost with PrivateKey := "" } ∧
    cfgKeyHost.StringCall.1 = cfgKeyHost ∧
    cfgKeyHost.StringCall.1.PrivateKey = cfgKeyHost.PrivateKey :=
  ⟨by decide,
    String_independent_of_PrivateKey cfgKeyHost cfgKeyPlain rfl rfl rfl rfl rfl rfl rfl rfl⟩

/-! ## Where a key can occur in the redacted serialisation -/

theorem infix_of_prefix_append_sep {k a b : List Char} {d : Char} (hd : d ∉ k)
    (h : k <+: a ++ d :: b) : k <+: a := by
  induction a generalizing k with
  | nil =>
    cases k with
    | nil => exact List.nil_prefix
    | cons x k' =>
      simp only [List.nil_append, List.cons_prefix_cons] at h
      exact absurd (h.1 ▸ List.mem_cons_self _ _) hd
  | cons x a ih =>
    cases k with
    | nil => exact List.nil_prefix
    | cons y k' =>
      simp only [List.cons_append, List.cons_prefix_cons] at h ⊢
      exact ⟨h.1, ih (fun hm => hd (List.mem_cons_of_mem _ hm)) h.2⟩

/-- A text without the delimiter `d` that occurs in `a ++ d :: b` occurs in `a` or
in `b`. -/
theorem infix_append_sep {k a b : List Char} {d : Char} (hd : d ∉ k)
    (h : k <:+: a ++ d :: b) : k <:+: a ∨ k <:+: b := by
  induction a with
  | nil =>
    simp only [List.nil_append] at h
    rcases List.infix_cons_iff.mp h with h | h
    · have := infix_of_prefix_append_sep (a := []) hd (by simpa using h)
      exact Or.inl this.isInfix
    · exact Or.inr h
  | cons x a ih =>
    simp only [List.cons_append] at h
    rcases List.infix_cons_iff.mp h with h | h
    · have := infix_of_prefix_append_sep (a := x :: a) hd (by simpa using h)
      exact Or.inl this.isInfix
    · rcases ih h with h | h
      · exact Or.inl (List.infix_cons h)
      · exact Or.inr h

/-- A text without any of the delimiters that occurs in an interleaving occurs in
one of its runs. -/
theorem infix_interleave {k : List Char} (p : List Char) (rest : List (Char × List Char))
    (hd : ∀ dq ∈ rest, dq.1 ∉ k) (h : k <:+: interleave p rest) :
    k <:+: p ∨ ∃ dq ∈ rest, k <:+: dq.2 := by
  induction rest generalizing p with
  | nil => exact Or.inl h
  | cons dq rest ih =>
    obtain ⟨d, q⟩ := dq
    simp only [interleave] at h
    rcases infix_append_sep (hd (d, q) (List.mem_cons_self _ _)) h with h | h
    · exact Or.inl h
    · rcases ih q (fun x hx => hd x (List.mem_cons_of_mem _ hx)) h with h | ⟨x, hx, h⟩
      · exact Or.inr ⟨(d, q), List.mem_cons_self _ _, h⟩
      · exact Or.inr ⟨x, List.mem_cons_of_mem _ hx, h⟩

/-- The redacted serialisation is the interleaving of its layout. -/
theorem String_data_eq_interleave (c : Config) :
    c.String.data = interleave [] c.redactedLayout := by
  simp [Config.String, Config.StringCall, jsonMarshal, Config.redactedLayout, interleave,
    memberName, encodeString, escapeString]

theorem redactedLayout_structural (c : Config) :
    ∀ dq ∈ c.redactedLayout, isStructural dq.1 = true := by
  intro dq h
  simp only [Config.redactedLayout, List.mem_cons, List.mem_singleton, List.not_mem_nil,
    or_false] at h
  rcases h with h | h | h | h | h | h | h | h | h | h | h | h | h | h | h | h | h | h | h | h |
    h | h | h | h | h | h | h | h | h | h | h | h | h | h | h | h | h | h | h | h | h | h | h |
    h | h | h | h <;> subst h <;> rfl

theorem redactedLayout_parts (c : Config) :
    ∀ dq ∈ c.redactedLayout, dq.2 = [] ∨ dq.2 ∈ c.visibleParts := by
  intro dq h
  simp only [Config.redactedLayout, List.mem_cons, List.mem_singleton, List.not_mem_nil,
    or_false] at h
  rcases h with h | h | h | h | h | h | h | h | h | h | h | h | h | h | h | h | h | h | h | h |
    h | h | h | h | h | h | h | h | h | h | h | h | h | h | h | h | h | h | h | h | h | h | h |
    h | h | h | h <;> subst h <;> simp [Config.visibleParts]

/-- C4 on the code: a configuration whose private key is the text "Host" has that
key in its redacted serialisation. -/
theorem String_contains_key_counterexample :
    cfgKeyHost.PrivateKey ≠ "" ∧ Contains cfgKeyHost.String cfgKeyHost.PrivateKey := by
  decide

/-- C4 as amended: when the non-empty private key has no JSON delimiter in it (no
double quote, colon, comma or brace, as is the case for every base64 text) and does
not occur in a field name, in the decimal rendering of an integer field or in the
escaped value of one of the other four string fields, the redacted serialisation
does not contain it. -/
theorem String_omits_key (c : Config) (hne : c.PrivateKey ≠ "")
    (hk : ∀ ch ∈ c.PrivateKey.data, isStructural ch = false)
    (hparts : ∀ p ∈ c.visibleParts, ¬ c.PrivateKey.data <:+: p) :
    ¬ Contains c.String c.PrivateKey := by
  intro h
  unfold Contains at h
  rw [String_data_eq_interleave] at h
  have hd : ∀ dq ∈ c.redactedLayout, dq.1 ∉ c.PrivateKey.data := by
    intro dq hdq hm
    have h1 := hk _ hm
    rw [redactedLayout_structural c dq hdq] at h1
    cases h1
  have hnil : ¬ c.PrivateKey.data <:+: [] := by
    intro h0
    apply hne
    have : c.PrivateKey.data = [] := List.eq_nil_of_infix_nil h0
    exact String.ext this
  rcases infix_interleave [] c.redactedLayout hd h with h | ⟨dq, hdq, h⟩
  · exact hnil h
  · rcases redactedLayout_parts c dq hdq with h0 | h0
    · rw [h0] at h; exact hnil h
    · exact hparts _ h0 h

/-- C4 as amended, at a concrete input: the key "CAESQA" on the default
configuration. -/
theorem String_omits_key_witness :
    ¬ Contains cfgKeyPlain.String cfgKeyPlain.PrivateKey :=
  String_omits_key cfgKeyPlain (by decide) (by decide) (by decide)

/-! ## Private key resolution inside a run -/

theorem Errorf_decode (e : String) :
    Errorf "decode base64 private key: %w" [.err e] = "decode base64 private key: " ++ e := by
  apply String.ext
  simp [Errorf, Sprintf, sprintfAux]

theorem Errorf_unmarshal (e : String) :
    Errorf "unmarshal private key: %w" [.err e] = "unmarshal private key: " ++ e := by
  apply String.ext
  simp [Errorf, Sprintf, sprintfAux]

theorem resolvePrivKey_gen_ok {cfg : Config} {env : Env} {key : PrivKey}
    (hk : cfg.PrivateKey = "") (hg : env.GenerateEd25519Key = .ok key) :
    resolvePrivKey cfg env = ([.GenerateEd25519Key true], .ok key) := by
  simp [resolvePrivKey, hk, hg]

theorem resolvePrivKey_gen_err {cfg : Config} {env : Env} {e : String}
    (hk : cfg.PrivateKey = "") (hg : env.GenerateEd25519Key = .error e) :
    resolvePrivKey cfg env =
      ([.GenerateEd25519Key false],
        .error (Errorf "generate new private key: %w" [.err e])) := by
  simp [resolvePrivKey, hk, hg]

theorem resolvePrivKey_dec_err {cfg : Config} {env : Env} {e : String}
    (hk : cfg.PrivateKey ≠ "") (hd : env.DecodeString cfg.PrivateKey = .error e) :
    resolvePrivKey cfg env =
      ([.DecodeString cfg.PrivateKey false],
        .error (Errorf "decode base64 private key: %w" [.err e])) := by
  simp [resolvePrivKey, hk, hd]

theorem resolvePrivKey_unm_err {cfg : Config} {env : Env} {dat : List Nat} {e : String}
    (hk : cfg.PrivateKey ≠ "") (hd : env.DecodeString cfg.PrivateKey = .ok dat)
    (hu : env.UnmarshalPrivateKey dat = .error e) :
    resolvePrivKey cfg env =
      ([.DecodeString cfg.PrivateKey true, .UnmarshalPrivateKey false],
        .error (Errorf "unmarshal private key: %w" [.err e])) := by
  simp [resolvePrivKey, hk, hd, hu]

theorem steps_resolvePrivKey_not_after {cfg : Config} {env : Env} {evs : List Event}
    {res : Except String PrivKey} (hr : resolvePrivKey cfg env = (evs, res)) :
    Step.host ∉ evs.filterMap Event.step ∧ Step.bootstrap ∉ evs.filterMap Event.step ∧
      Step.wait ∉ evs.filterMap Event.step := by
  have key : ∀ s ∈ evs.filterMap Event.step,
      s = .generateKey ∨ s = .decodeKey ∨ s = .unmarshalKey := by
    intro s hs
    obtain ⟨ev, hev, hst⟩ := List.mem_filterMap.mp hs
    have : ev ∈ (resolvePrivKey cfg env).1 := by rw [hr]; exact hev
    rcases step_of_mem_resolvePrivKey this with h | h | h <;> rw [h] at hst <;>
      cases hst <;> simp
  refine ⟨fun h => ?_, fun h => ?_, fun h => ?_⟩ <;>
    rcases key _ h with h | h | h <;> cases h

/-- A run in which private key resolution ends in an error: the host is not
constructed, bootstrap is not invoked, the action returns an error, and once both
providers have been constructed that error is the one of the key resolution, which
is the last event of the run. -/
theorem run_of_key_error {cfg : Config} {env : Env} {evs : List Event} {err : String}
    (hr : resolvePrivKey cfg env = (evs, .error err)) :
    Step.host ∉ (daemonAction cfg env).steps ∧
    Step.bootstrap ∉ (daemonAction cfg env).steps ∧
    (∃ msg, (daemonAction cfg env).outcome = .returned (some msg)) ∧
    (Event.newTraceProvider true ∈ (daemonAction cfg env).trace →
      (daemonAction cfg env).outcome = .returned (some err) ∧
      (daemonAction cfg env).trace =
        startLogs cfg ++ [.newMeterProvider true, .newTraceProvider true] ++
          startMetricsServer cfg ++ evs) := by
  refine daemonAction_cases cfg env
    (fun r => Step.host ∉ r.steps ∧ Step.bootstrap ∉ r.steps ∧
      (∃ msg, r.outcome = .returned (some msg)) ∧
      (Event.newTraceProvider true ∈ r.trace →
        r.outcome = .returned (some err) ∧
        r.trace = startLogs cfg ++ [.newMeterProvider true, .newTraceProvider true] ++
          startMetricsServer cfg ++ evs)) ?_ ?_ ?_ ?_ ?_ ?_ ?_
  · intro e _
    simp [Run.steps, startLogs, Event.step]
  · intro mp e _ _
    simp [Run.steps, startLogs, Event.step]
  · intro mp tp evs' err' _ _ hr'
    rw [hr] at hr'
    cases hr'
    obtain ⟨h1, h2, _⟩ := steps_resolvePrivKey_not_after hr
    refine ⟨?_, ?_, ⟨_, rfl⟩, fun _ => ⟨rfl, rfl⟩⟩
    · simp only [Run.steps, List.filterMap_append, steps_startLogs,
        steps_startMetricsServer, List.mem_append]
      rintro ((h | h) | h)
      · simp [Event.step] at h
      · split at h <;> simp at h
      · exact h1 h
    · simp only [Run.steps, List.filterMap_append, steps_startLogs,
        steps_startMetricsServer, List.mem_append]
      rintro ((h | h) | h)
      · simp [Event.step] at h
      · split at h <;> simp at h
      · exact h2 h
  · intro mp tp evs' key e _ _ hr'
    rw [hr] at hr'; cases hr'
  · intro mp tp evs' key h e _ _ hr'
    rw [hr] at hr'; cases hr'
  · intro mp tp evs' key h _ _ hr'
    rw [hr] at hr'; cases hr'
  · intro mp tp evs' key h _ _ hr'
    rw [hr] at hr'; cases hr'

/-- A run in which private key resolution yields a key: once both providers have
been constructed, the host is constructed next, with that key as its identity. -/
theorem run_of_key_ok {cfg : Config} {env : Env} {evs : List Event} {key : PrivKey}
    (hr : resolvePrivKey cfg env = (evs, .ok key))
    (hreach : Event.newTraceProvider true ∈ (daemonAction cfg env).trace) :
    ∃ dc b rest, (daemonAction cfg env).trace =
      startLogs cfg ++ [.newMeterProvider true, .newTraceProvider true] ++
        startMetricsServer cfg ++ evs ++
        Event.libp2pNew key (listenAddrs cfg) dc b :: rest := by
  revert hreach
  refine daemonAction_cases cfg env
    (fun r => Event.newTraceProvider true ∈ r.trace → ∃ dc b rest, r.trace =
      startLogs cfg ++ [.newMeterProvider true, .newTraceProvider true] ++
        startMetricsServer cfg ++ evs ++
        Event.libp2pNew key (listenAddrs cfg) dc b :: rest) ?_ ?_ ?_ ?_ ?_ ?_ ?_
  · intro e _ h
    simp [startLogs] at h
  · intro mp e _ _ h
    simp [startLogs] at h
  · intro mp tp evs' err' _ _ hr'
    rw [hr] at hr'; cases hr'
  · intro mp tp evs' key' e _ _ hr' _ _
    rw [hr] at hr'; cases hr'
    exact ⟨_, _, [], rfl⟩
  · intro mp tp evs' key' h e _ _ hr' _ _ _
    rw [hr] at hr'; cases hr'
    exact ⟨buildDHTConfig cfg mp tp, true, hostLogs h ++ [.Bootstrap false], by simp⟩
  · intro mp tp evs' key' h _ _ hr' _ _ _ _
    rw [hr] at hr'; cases hr'
    exact ⟨buildDHTConfig cfg mp tp, true,
      hostLogs h ++ [.Bootstrap true, .slog LevelInfo "Initialized" [], .ctxDone], by simp⟩
  · intro mp tp evs' key' h _ _ hr' _ _ _ _
    rw [hr] at hr'; cases hr'
    exact ⟨buildDHTConfig cfg mp tp, true,
      hostLogs h ++ [.Bootstrap true, .slog LevelInfo "Initialized" []], by simp⟩

/-- The steps of private key resolution, by its result. -/
theorem steps_resolvePrivKey {cfg : Config} {env : Env} {evs : List Event}
    {res : Except String PrivKey} (hr : resolvePrivKey cfg env = (evs, res)) :
    (cfg.PrivateKey = "" ∧ evs.filterMap Event.step = [.generateKey]) ∨
    (cfg.PrivateKey ≠ "" ∧ (∃ e, res = .error e) ∧
      evs.filterMap Event.step = [.decodeKey]) ∨
    (cfg.PrivateKey ≠ "" ∧ evs.filterMap Event.step = [.decodeKey, .unmarshalKey]) := by
  cases res with
  | error err =>
    rcases resolvePrivKey_error hr with ⟨hk, rfl, _⟩ | ⟨hk, rfl, _⟩ | ⟨hk, rfl, _⟩
    · exact Or.inl ⟨hk, rfl⟩
    · exact Or.inr (Or.inl ⟨hk, ⟨_, rfl⟩, rfl⟩)
    · exact Or.inr (Or.inr ⟨hk, rfl⟩)
  | ok key =>
    rcases resolvePrivKey_ok hr with ⟨hk, rfl, _⟩ | ⟨hk, rfl, _⟩
    · exact Or.inl ⟨hk, rfl⟩
    · exact Or.inr (Or.inr ⟨hk, rfl⟩)

/-- The steps of every run are an initial segment of the steps of the full run. -/
theorem steps_isPrefix_fullSteps (cfg : Config) (env : Env) :
    (daemonAction cfg env).steps <+: fullSteps cfg := by
  refine daemonAction_cases cfg env (fun r => r.steps <+: fullSteps cfg) ?_ ?_ ?_ ?_ ?_ ?_ ?_
  · intro e _
    refine ⟨.traceProvider :: ((if cfg.EnableTraceProvider cfg || cfg.EnableMeterProvider cfg
      then [.metricsServer] else []) ++
      (if cfg.PrivateKey == "" then [.generateKey] else [.decodeKey, .unmarshalKey]) ++
      [.host, .bootstrap, .wait]), ?_⟩
    simp [Run.steps, List.filterMap_append, steps_startLogs, fullSteps, Event.step]
  · intro mp e _ _
    refine ⟨(if cfg.EnableTraceProvider cfg || cfg.EnableMeterProvider cfg
      then [.metricsServer] else []) ++
      (if cfg.PrivateKey == "" then [.generateKey] else [.decodeKey, .unmarshalKey]) ++
      [.host, .bootstrap, .wait], ?_⟩
    simp [Run.steps, List.filterMap_append, steps_startLogs, fullSteps, Event.step]
  · intro mp tp evs err _ _ hr
    rcases steps_resolvePrivKey hr with ⟨hk, he⟩ | ⟨hk, _, he⟩ | ⟨hk, he⟩
    · refine ⟨[.host, .bootstrap, .wait], ?_⟩
      simp [Run.steps, List.filterMap_append, steps_startLogs, steps_startMetricsServer,
        fullSteps, Event.step, he, hk]
    · refine ⟨[.unmarshalKey, .host, .bootstrap, .wait], ?_⟩
      simp [Run.steps, List.filterMap_append, steps_startLogs, steps_startMetricsServer,
        fullSteps, Event.step, he, hk]
    · refine ⟨[.host, .bootstrap, .wait], ?_⟩
      simp [Run.steps, List.filterMap_append, steps_startLogs, steps_startMetricsServer,
        fullSteps, Event.step, he, hk]
  · intro mp tp evs key err _ _ hr _
    rcases steps_resolvePrivKey hr with ⟨hk, he⟩ | ⟨hk, ⟨_, h⟩, _⟩ | ⟨hk, he⟩
    · refine ⟨[.bootstrap, .wait], ?_⟩
      simp [Run.steps, List.filterMap_append, steps_startLogs, steps_startMetricsServer,
        fullSteps, Event.step, he, hk]
    · cases h
    · refine ⟨[.bootstrap, .wait], ?_⟩
      simp [Run.steps, List.filterMap_append, steps_startLogs, steps_startMetricsServer,
        fullSteps, Event.step, he, hk]
  · intro mp tp evs key h err _ _ hr _ _
    rcases steps_resolvePrivKey hr with ⟨hk, he⟩ | ⟨hk, ⟨_, h⟩, _⟩ | ⟨hk, he⟩
    · refine ⟨[.wait], ?_⟩
      simp [Run.steps, List.filterMap_append, steps_startLogs, steps_startMetricsServer,
        steps_hostLogs, fullSteps, Event.step, he, hk]
    · cases h
    · refine ⟨[.wait], ?_⟩
      simp [Run.steps, List.filterMap_append, steps_startLogs, steps_startMetricsServer,
        steps_hostLogs, fullSteps, Event.step, he, hk]
  · intro mp tp evs key h _ _ hr _ _ _
    rcases steps_resolvePrivKey hr with ⟨hk, he⟩ | ⟨hk, ⟨_, h⟩, _⟩ | ⟨hk, he⟩
    · refine ⟨[], ?_⟩
      simp [Run.steps, List.filterMap_append, steps_startLogs, steps_startMetricsServer,
        steps_hostLogs, fullSteps, Event.step, he, hk]
    · cases h
    · refine ⟨[], ?_⟩
      simp [Run.steps, List.filterMap_append, steps_startLogs, steps_startMetricsServer,
        steps_hostLogs, fullSteps, Event.step, he, hk]
  · intro mp tp evs key h _ _ hr _ _ _
    rcases steps_resolvePrivKey hr with ⟨hk, he⟩ | ⟨hk, ⟨_, h⟩, _⟩ | ⟨hk, he⟩
    · refine ⟨[.wait], ?_⟩
      simp [Run.steps, List.filterMap_append, steps_startLogs, steps_startMetricsServer,
        steps_hostLogs, fullSteps, Event.step, he, hk]
    · cases h
    · refine ⟨[.wait], ?_⟩
      simp [Run.steps, List.filterMap_append, steps_startLogs, steps_startMetricsServer,
        steps_hostLogs, fullSteps, Event.step, he, hk]

/-- With an empty `PrivateKey` no run calls the base64 decoder. -/
theorem no_decode_of_empty_key {cfg : Config} {env : Env} (hk : cfg.PrivateKey = "")
    (s : String) (b : Bool) : Event.DecodeString s b ∉ (daemonAction cfg env).trace := by
  intro hm
  have h1 : Step.decodeKey ∈ (daemonAction cfg env).steps :=
    List.mem_filterMap.mpr ⟨_, hm, rfl⟩
  have h2 := (steps_isPrefix_fullSteps cfg env).subset h1
  simp only [fullSteps, hk, beq_self_eq_true, if_true, List.mem_append, List.mem_cons,
    List.mem_singleton, List.not_mem_nil, or_false, reduceCtorEq, false_or, or_self] at h2
  split at h2 <;> simp at h2

/-- C5: in a run of `daemonAction` that gets to private key resolution (both
providers constructed), an empty `PrivateKey` makes the run generate a key, which
becomes the identity of the host when generation succeeds; a non-empty `PrivateKey`
that the unpadded standard base64 decoder rejects makes the action return a
"decode base64 private key" error, and one that decodes to bytes that are not a
key an "unmarshal private key" error.  In both failure cases, in every run, the
action returns an error, the host is not constructed and bootstrap is not invoked. -/
theorem identity_resolution (cfg : Config) (env : Env) :
    (Event.newTraceProvider true ∈ (daemonAction cfg env).trace → cfg.PrivateKey = "" →
      (∃ b, Event.GenerateEd25519Key b ∈ (daemonAction cfg env).trace) ∧
      (∀ s b, Event.DecodeString s b ∉ (daemonAction cfg env).trace) ∧
      (∀ key, env.GenerateEd25519Key = .ok key →
        ∃ dc b, Event.libp2pNew key (listenAddrs cfg) dc b ∈
          (daemonAction cfg env).trace)) ∧
    (∀ e, cfg.PrivateKey ≠ "" → env.DecodeString cfg.PrivateKey = .error e →
      Step.host ∉ (daemonAction cfg env).steps ∧
      Step.bootstrap ∉ (daemonAction cfg env).steps ∧
      (∃ msg, (daemonAction cfg env).outcome = .returned (some msg)) ∧
      (Event.newTraceProvider true ∈ (daemonAction cfg env).trace →
        (daemonAction cfg env).outcome =
          .returned (some ("decode base64 private key: " ++ e)))) ∧
    (∀ dat e, cfg.PrivateKey ≠ "" → env.DecodeString cfg.PrivateKey = .ok dat →
      env.UnmarshalPrivateKey dat = .error e →
      Step.host ∉ (daemonAction cfg env).steps ∧
      Step.bootstrap ∉ (daemonAction cfg env).steps ∧
      (∃ msg, (daemonAction cfg env).outcome = .returned (some msg)) ∧
      (Event.newTraceProvider true ∈ (daemonAction cfg env).trace →
        (daemonAction cfg env).outcome =
          .returned (some ("unmarshal private key: " ++ e)))) := by
  refine ⟨?_, ?_, ?_⟩
  · intro hreach hk
    cases hg : env.GenerateEd25519Key with
    | error e =>
      have hr := resolvePrivKey_gen_err hk hg
      obtain ⟨_, _, _, h4⟩ := run_of_key_error hr
      obtain ⟨_, htr⟩ := h4 hreach
      refine ⟨⟨false, ?_⟩, ?_, ?_⟩
      · rw [htr]; simp
      · exact no_decode_of_empty_key hk
      · intro key hkey; cases hkey
    | ok key =>
      have hr := resolvePrivKey_gen_ok hk hg
      obtain ⟨dc, b, rest, htr⟩ := run_of_key_ok hr hreach
      refine ⟨⟨true, ?_⟩, ?_, ?_⟩
      · rw [htr]; simp
      · exact no_decode_of_empty_key hk
      · intro key' hkey
        cases hkey
        exact ⟨dc, b, by rw [htr]; simp⟩
  · intro e hk hd
    have hr := resolvePrivKey_dec_err hk hd
    obtain ⟨h1, h2, h3, h4⟩ := run_of_key_error hr
    exact ⟨h1, h2, h3, fun hreach => by rw [(h4 hreach).1, Errorf_decode]⟩
  · intro dat e hk hd hu
    have hr := resolvePrivKey_unm_err hk hd hu
    obtain ⟨h1, h2, h3, h4⟩ := run_of_key_error hr
    exact ⟨h1, h2, h3, fun hreach => by rw [(h4 hreach).1, Errorf_unmarshal]⟩

/-- C5 at a concrete input: metrics configured, the key "CAES=" rejected by the
decoder. -/
theorem identity_resolution_witness :
    Step.host ∉ (daemonAction cfgPaddedKey envDecodeFails).steps ∧
    Step.bootstrap ∉ (daemonAction cfgPaddedKey envDecodeFails).steps ∧
    (daemonAction cfgPaddedKey envDecodeFails).outcome =
      .returned (some ("decode base64 private key: " ++
        "illegal base64 data at input byte 4")) :=
  have h := (identity_resolution cfgPaddedKey envDecodeFails).2.1
    "illegal base64 data at input byte 4" (by decide) rfl
  ⟨h.1, h.2.1, h.2.2.2 (by decide)⟩

/-! ## Failure and exit status -/

theorem AllOk_nil : AllOk [] := by
  intro ev h; cases h

theorem AllOk_append {a b : List Event} : AllOk (a ++ b) ↔ AllOk a ∧ AllOk b := by
  simp only [AllOk, List.mem_append]
  exact ⟨fun h => ⟨fun ev he => h ev (Or.inl he), fun ev he => h ev (Or.inr he)⟩,
    fun h ev he => he.elim (h.1 ev) (h.2 ev)⟩

theorem AllOk_cons {e : Event} {l : List Event} :
    AllOk (e :: l) ↔ e.failed = false ∧ AllOk l := by
  simp only [AllOk, List.mem_cons]
  exact ⟨fun h => ⟨h e (Or.inl rfl), fun ev he => h ev (Or.inr he)⟩,
    fun h ev he => he.elim (fun h0 => h0 ▸ h.1) (h.2 ev)⟩

theorem AllOk_startLogs (cfg : Config) : AllOk (startLogs cfg) :=
  fun _ h => failed_startLogs h

theorem AllOk_hostLogs (h : P2PHost) : AllOk (hostLogs h) :=
  fun _ hm => failed_hostLogs hm

theorem AllOk_startMetricsServer (cfg : Config) : AllOk (startMetricsServer cfg) :=
  fun _ h => failed_startMetricsServer h

theorem AllOk_resolvePrivKey_ok {cfg : Config} {env : Env} {evs : List Event}
    {key : PrivKey} (hr : resolvePrivKey cfg env = (evs, .ok key)) : AllOk evs := by
  rcases resolvePrivKey_ok hr with ⟨_, rfl, _⟩ | ⟨_, rfl, _⟩ <;>
    simp [AllOk_cons, AllOk_nil, Event.failed]

/-- When private key resolution ends in an error, its last event is the failed one
and the events before it succeeded. -/
theorem resolvePrivKey_error_split {cfg : Config} {env : Env} {evs : List Event}
    {err : String} (hr : resolvePrivKey cfg env = (evs, .error err)) :
    ∃ good bad, evs = good ++ [bad] ∧ AllOk good ∧ bad.failed = true := by
  rcases resolvePrivKey_error hr with ⟨_, rfl, _⟩ | ⟨_, rfl, _⟩ | ⟨_, rfl, _⟩
  · exact ⟨[], _, rfl, AllOk_nil, rfl⟩
  · exact ⟨[], _, rfl, AllOk_nil, rfl⟩
  · exact ⟨[.DecodeString cfg.PrivateKey true], _, rfl,
      by simp [AllOk_cons, AllOk_nil, Event.failed], rfl⟩

/-- In a trace whose events succeeded up to a last, failed, one, a failed event is
the last event. -/
theorem failed_is_last {l good : List Event} {bad : Event} (hl : l = good ++ [bad])
    (hg : AllOk good) (ev : Event) (hm : ev ∈ l) (hf : ev.failed = true) :
    l.getLast? = some ev := by
  subst hl
  rcases List.mem_append.mp hm with h | h
  · rw [hg ev h] at hf; cases hf
  · simp only [List.mem_singleton] at h
    subst h
    simp

/-- The facts about a run that ends with a failed step. -/
theorem failing_run_facts (r : Run) (X : Prop) (good : List Event) (bad : Event)
    (m : String) (ht : r.trace = good ++ [bad]) (hg : AllOk good)
    (hb : bad.failed = true) (ho : r.outcome = .returned (some m)) :
    (∀ ev ∈ r.trace, ev.failed = true →
      (∃ msg, r.outcome = .returned (some msg)) ∧ exitStatus r.outcome = some 1 ∧
      r.trace.getLast? = some ev) ∧
    (∀ msg, r.outcome = .returned (some msg) →
      exitStatus r.outcome = some 1 ∧ ∃ ev ∈ r.trace, ev.failed = true) ∧
    (r.outcome = .returned none → X) ∧
    (exitStatus r.outcome = some 0 → r.outcome = .returned none) := by
  refine ⟨fun ev hm hf => ⟨⟨m, ho⟩, by rw [ho]; rfl, failed_is_last ht hg ev hm hf⟩,
    fun msg _ => ⟨by rw [ho]; rfl, bad, ?_, hb⟩, ?_, ?_⟩
  · rw [ht]; exact List.mem_append_right _ (List.mem_singleton_self _)
  · intro h; rw [ho] at h; cases h
  · intro h; rw [ho] at h; cases h

/-- The facts about a run without a failed step that does not return an error. -/
theorem clean_run_facts (r : Run) (X : Prop) (hok : AllOk r.trace)
    (ho : ∀ msg, r.outcome ≠ .returned (some msg)) (hx : r.outcome = .returned none → X) :
    (∀ ev ∈ r.trace, ev.failed = true →
      (∃ msg, r.outcome = .returned (some msg)) ∧ exitStatus r.outcome = some 1 ∧
      r.trace.getLast? = some ev) ∧
    (∀ msg, r.outcome = .returned (some msg) →
      exitStatus r.outcome = some 1 ∧ ∃ ev ∈ r.trace, ev.failed = true) ∧
    (r.outcome = .returned none → X) ∧
    (exitStatus r.outcome = some 0 → r.outcome = .returned none) := by
  refine ⟨fun ev hm hf => ?_, fun msg h => absurd h (ho msg), hx, ?_⟩
  · rw [hok ev hm] at hf; cases hf
  · intro h
    cases hr : r.outcome with
    | blocked => rw [hr] at h; cases h
    | returned e =>
      cases e with
      | none => rfl
      | some msg => exact absurd hr (ho msg)

/-- The steps of a run that returns nil. -/
theorem steps_of_done {cfg : Config} {env : Env} {evs : List Event} {key : PrivKey}
    (hr : resolvePrivKey cfg env = (evs, .ok key)) (dc : DHTConfig) (h : P2PHost) :
    (startLogs cfg ++ [Event.newMeterProvider true, Event.newTraceProvider true] ++
      startMetricsServer cfg ++ evs ++ [Event.libp2pNew key (listenAddrs cfg) dc true] ++
      hostLogs h ++
      [Event.Bootstrap true, Event.slog LevelInfo "Initialized" [], Event.ctxDone]).filterMap
        Event.step = fullSteps cfg := by
  rcases steps_resolvePrivKey hr with ⟨hk, he⟩ | ⟨hk, ⟨_, h⟩, _⟩ | ⟨hk, he⟩
  · simp [List.filterMap_append, steps_startLogs, steps_startMetricsServer,
      steps_hostLogs, fullSteps, Event.step, he, hk]
  · cases h
  · simp [List.filterMap_append, steps_startLogs, steps_startMetricsServer,
      steps_hostLogs, fullSteps, Event.step, he, hk]

/-- C7: in every run of `daemonAction`, a failed step (meter provider, trace
provider, key generation, decoding or unmarshalling, host construction, bootstrap)
makes the action return a non-nil error and `main` exit with status 1, and it is
the last event of the run, so no later step is performed; every non-nil error comes
with a failed step; and the action returns nil, with exit status 0, only when the
lifetime context has been canceled and every step of the full sequence was
performed without failure. -/
theorem failure_stops_the_run (cfg : Config) (env : Env) :
    (∀ ev ∈ (daemonAction cfg env).trace, ev.failed = true →
      (∃ msg, (daemonAction cfg env).outcome = .returned (some msg)) ∧
      mainExit cfg env = some 1 ∧
      (daemonAction cfg env).trace.getLast? = some ev) ∧
    (∀ msg, (daemonAction cfg env).outcome = .returned (some msg) →
      mainExit cfg env = some 1 ∧
      ∃ ev ∈ (daemonAction cfg env).trace, ev.failed = true) ∧
    ((daemonAction cfg env).outcome = .returned none →
      mainExit cfg env = some 0 ∧ env.ctxCanceled = true ∧
      (daemonAction cfg env).steps = fullSteps cfg ∧
      AllOk (daemonAction cfg env).trace) ∧
    (mainExit cfg env = some 0 → (daemonAction cfg env).outcome = .returned none) := by
  unfold mainExit
  refine daemonAction_cases cfg env
    (fun r =>
      (∀ ev ∈ r.trace, ev.failed = true →
        (∃ msg, r.outcome = .returned (some msg)) ∧ exitStatus r.outcome = some 1 ∧
        r.trace.getLast? = some ev) ∧
      (∀ msg, r.outcome = .returned (some msg) →
        exitStatus r.outcome = some 1 ∧ ∃ ev ∈ r.trace, ev.failed = true) ∧
      (r.outcome = .returned none →
        exitStatus r.outcome = some 0 ∧ env.ctxCanceled = true ∧
        r.steps = fullSteps cfg ∧ AllOk r.trace) ∧
      (exitStatus r.outcome = some 0 → r.outcome = .returned none))
    ?_ ?_ ?_ ?_ ?_ ?_ ?_
  · intro e _
    exact failing_run_facts _ _ (startLogs cfg) (.newMeterProvider false) _ rfl
      (AllOk_startLogs cfg) rfl rfl
  · intro mp e _ _
    refine failing_run_facts _ _ (startLogs cfg ++ [.newMeterProvider true])
      (.newTraceProvider false) _ (by simp) ?_ rfl rfl
    simp [AllOk_append, AllOk_cons, AllOk_nil, AllOk_startLogs, Event.failed]
  · intro mp tp evs err _ _ hr
    obtain ⟨good, bad, rfl, hg, hb⟩ := resolvePrivKey_error_split hr
    refine failing_run_facts _ _ (startLogs cfg ++
      [.newMeterProvider true, .newTraceProvider true] ++ startMetricsServer cfg ++ good)
      bad _ (by simp) ?_ hb rfl
    simp [AllOk_append, AllOk_cons, AllOk_nil, AllOk_startLogs, AllOk_startMetricsServer,
      Event.failed, hg]
  · intro mp tp evs key err _ _ hr _
    refine failing_run_facts _ _ (startLogs cfg ++
      [.newMeterProvider true, .newTraceProvider true] ++ startMetricsServer cfg ++ evs)
      (.libp2pNew key (listenAddrs cfg) (buildDHTConfig cfg mp tp) false) _ rfl ?_ rfl rfl
    simp [AllOk_append, AllOk_cons, AllOk_nil, AllOk_startLogs, AllOk_startMetricsServer,
      Event.failed, AllOk_resolvePrivKey_ok hr]
  · intro mp tp evs key h err _ _ hr _ _
    refine failing_run_facts _ _ (startLogs cfg ++
      [.newMeterProvider true, .newTraceProvider true] ++ startMetricsServer cfg ++ evs ++
      [.libp2pNew key (listenAddrs cfg) (buildDHTConfig cfg mp tp) true] ++ hostLogs h)
      (.Bootstrap false) _ rfl ?_ rfl rfl
    simp [AllOk_append, AllOk_cons, AllOk_nil, AllOk_startLogs, AllOk_startMetricsServer,
      Event.failed, AllOk_resolvePrivKey_ok hr, AllOk_hostLogs]
  · intro mp tp evs key h _ _ hr _ _ hc
    have hok : AllOk (startLogs cfg ++
        [.newMeterProvider true, .newTraceProvider true] ++ startMetricsServer cfg ++ evs ++
        [.libp2pNew key (listenAddrs cfg) (buildDHTConfig cfg mp tp) true] ++ hostLogs h ++
        [.Bootstrap true, .slog LevelInfo "Initialized" [], .ctxDone]) := by
      simp [AllOk_append, AllOk_cons, AllOk_nil, AllOk_startLogs, AllOk_startMetricsServer,
        Event.failed, AllOk_resolvePrivKey_ok hr, AllOk_hostLogs]
    refine clean_run_facts _ _ hok (fun msg h => by cases h) (fun _ => ⟨rfl, hc, ?_, hok⟩)
    exact steps_of_done hr _ h
  · intro mp tp evs key h _ _ hr _ _ hc
    have hok : AllOk (startLogs cfg ++
        [.newMeterProvider true, .newTraceProvider true] ++ startMetricsServer cfg ++ evs ++
        [.libp2pNew key (listenAddrs cfg) (buildDHTConfig cfg mp tp) true] ++ hostLogs h ++
        [.Bootstrap true, .slog LevelInfo "Initialized" []]) := by
      simp [AllOk_append, AllOk_cons, AllOk_nil, AllOk_startLogs, AllOk_startMetricsServer,
        Event.failed, AllOk_resolvePrivKey_ok hr, AllOk_hostLogs]
    exact clean_run_facts _ _ hok (fun msg h => by cases h) (fun h => by cases h)

/-- C7 at concrete inputs: a run whose bootstrap fails exits with status 1 and ends
with the failed bootstrap, and a run without failure returns nil with status 0. -/
theorem failure_stops_the_run_witness :
    ((∃ msg, (daemonAction cfgInit envBootstrapFails).outcome = .returned (some msg)) ∧
      mainExit cfgInit envBootstrapFails = some 1 ∧
      (daemonAction cfgInit envBootstrapFails).trace.getLast? =
        some (Event.Bootstrap false)) ∧
    (mainExit cfgInit envOk = some 0 ∧ envOk.ctxCanceled = true ∧
      (daemonAction cfgInit envOk).steps = fullSteps cfgInit ∧
      AllOk (daemonAction cfgInit envOk).trace) :=
  ⟨(failure_stops_the_run cfgInit envBootstrapFails).1 (Event.Bootstrap false)
      (by decide) rfl,
    (failure_stops_the_run cfgInit envOk).2.2.1 (by decide)⟩

/-! ## The order of the start-up steps -/

theorem fullSteps_codeRank (cfg : Config) :
    (fullSteps cfg).Pairwise (fun a b => a.phase.codeRank ≤ b.phase.codeRank) := by
  unfold fullSteps
  split <;> split <;> decide

/-- C9 on the code: with metrics configured and a key the decoder rejects, the
steps of the run are meter provider, trace provider, metrics server, decoding; they
are not in the order identity, telemetry, metrics server, and both providers and
the metrics server precede the rejection of the key. -/
theorem startup_order_counterexample :
    (daemonAction cfgPaddedKey envDecodeFails).steps =
      [.meterProvider, .traceProvider, .metricsServer, .decodeKey] ∧
    ¬ (daemonAction cfgPaddedKey envDecodeFails).steps.Pairwise
        (fun a b => a.phase.specRank ≤ b.phase.specRank) ∧
    (daemonAction cfgPaddedKey envDecodeFails).outcome =
      .returned (some ("decode base64 private key: " ++
        "illegal base64 data at input byte 4")) := by
  decide

/-- C9 as amended: the steps of every run are an initial segment of the sequence
meter provider, trace provider, metrics server (when started), key generation or
decoding and unmarshalling, host construction, bootstrap, wait, and hence in the
order telemetry, metrics server, identity, host, bootstrap, wait; a configuration
whose private key fails to decode is rejected, in a run that constructs both
providers, after them and after the start of the metrics server, with the failed
decoding as the last step. -/
theorem startup_order (cfg : Config) (env : Env) :
    (daemonAction cfg env).steps <+: fullSteps cfg ∧
    (daemonAction cfg env).steps.Pairwise
      (fun a b => a.phase.codeRank ≤ b.phase.codeRank) ∧
    (∀ e, cfg.PrivateKey ≠ "" → env.DecodeString cfg.PrivateKey = .error e →
      Event.newTraceProvider true ∈ (daemonAction cfg env).trace →
      (daemonAction cfg env).steps =
        [.meterProvider, .traceProvider] ++
        (if cfg.EnableTraceProvider cfg || cfg.EnableMeterProvider cfg
          then [.metricsServer] else []) ++ [.decodeKey]) := by
  refine ⟨steps_isPrefix_fullSteps cfg env,
    (fullSteps_codeRank cfg).sublist (steps_isPrefix_fullSteps cfg env).sublist, ?_⟩
  intro e hk hd hreach
  obtain ⟨_, _, _, h4⟩ := run_of_key_error (resolvePrivKey_dec_err hk hd)
  obtain ⟨_, htr⟩ := h4 hreach
  simp [Run.steps, htr, List.filterMap_append, steps_startLogs, steps_startMetricsServer,
    Event.step]

/-- C9 as amended, at a concrete input: metrics configured, key rejected. -/
theorem startup_order_witness :
    (daemonAction cfgPaddedKey envDecodeFails).steps =
      [.meterProvider, .traceProvider] ++
      (if cfgPaddedKey.EnableTraceProvider cfgPaddedKey ||
          cfgPaddedKey.EnableMeterProvider cfgPaddedKey
        then [.metricsServer] else []) ++ [.decodeKey] :=
  (startup_order cfgPaddedKey envDecodeFails).2.2 "illegal base64 data at input byte 4"
    (by decide) rfl (by decide)

/-! ## The signal listener -/

theorem Inv_init : Shutdown.init.Inv none := by
  simp [Shutdown.Inv, Shutdown.init]

/-- Nothing happens in a terminated process. -/
theorem step_of_killed {s : Shutdown} (hk : s.killed = true) (a : Action) :
    s.step a = s := by
  simp [Shutdown.step, hk]

theorem run_of_killed {s : Shutdown} (hk : s.killed = true) (more : List Action) :
    s.run more = s := by
  induction more with
  | nil => rfl
  | cons a rest ih => simpa [Shutdown.run, step_of_killed hk] using ih

/-- The invariant after one more action, when `f` is the first signal delivered so
far. -/
theorem Inv_step {f : Option Signal} {s : Shutdown} (h : s.Inv f) (a : Action) :
    (s.step a).Inv (f <|> firstDelivered [a]) := by
  obtain ⟨notifying, sigs, pc, logged, cancelCalls, ctxCanceled, killed⟩ := s
  cases pc with
  | receive =>
    simp only [Shutdown.Inv] at h
    obtain ⟨h0, h1, h2, h3, h4, h5⟩ := h
    subst h0 h1 h2 h3 h4 h5
    cases a <;> cases sigs <;> simp [Shutdown.step, Shutdown.Inv, firstDelivered]
  | log sig' =>
    simp only [Shutdown.Inv] at h
    obtain ⟨h1, h0, h2, h3, h4, h5⟩ := h
    subst h0 h1 h2 h3 h4 h5
    cases a <;> cases sigs <;> simp [Shutdown.step, Shutdown.Inv, firstDelivered]
  | stop =>
    simp only [Shutdown.Inv] at h
    obtain ⟨⟨sg, h1, h3⟩, h0, h2, h4, h5⟩ := h
    subst h0 h1 h2 h3 h4 h5
    cases a <;> cases sigs <;> simp [Shutdown.step, Shutdown.Inv, firstDelivered]
  | cancel =>
    simp only [Shutdown.Inv] at h
    obtain ⟨⟨sg, h1, h3⟩, h2, h4, h5⟩ := h
    subst h1 h2 h3 h4 h5
    cases a <;> cases killed <;> simp [Shutdown.step, Shutdown.Inv, firstDelivered]
  | done =>
    simp only [Shutdown.Inv] at h
    obtain ⟨⟨sg, h1, h3⟩, h2, h4, h5⟩ := h
    subst h1 h2 h3 h4 h5
    cases a <;> cases killed <;> simp [Shutdown.step, Shutdown.Inv, firstDelivered]

theorem firstDelivered_cons (a : Action) (rest : List Action) :
    firstDelivered (a :: rest) = (firstDelivered [a] <|> firstDelivered rest) := by
  cases a <;> simp [firstDelivered]

theorem Inv_run {f : Option Signal} {s : Shutdown} (h : s.Inv f) (sched : List Action) :
    (s.run sched).Inv (f <|> firstDelivered sched) := by
  induction sched generalizing f s with
  | nil => simpa [Shutdown.run, firstDelivered] using h
  | cons a rest ih =>
    have := ih (Inv_step h a)
    have hassoc : ((f <|> firstDelivered [a]) <|> firstDelivered rest) =
        (f <|> (firstDelivered [a] <|> firstDelivered rest)) := by
      cases f <;> cases firstDelivered [a] <;> rfl
    rw [firstDelivered_cons, ← hassoc]
    exact this

/-- Once the listener has finished, a further action changes at most whether the
process is alive. -/
theorem step_of_done {s : Shutdown} (hpc : s.pc = .done) (hn : s.notifying = false)
    (a : Action) :
    (s.step a).pc = .done ∧ (s.step a).notifying = false ∧
    (s.step a).cancelCalls = s.cancelCalls ∧ (s.step a).ctxCanceled = s.ctxCanceled ∧
    (s.step a).logged = s.logged := by
  obtain ⟨notifying, sigs, pc, logged, cancelCalls, ctxCanceled, killed⟩ := s
  simp only at hpc hn
  subst hpc hn
  cases a <;> cases killed <;> simp [Shutdown.step]

theorem run_of_done {s : Shutdown} (hpc : s.pc = .done) (hn : s.notifying = false)
    (more : List Action) :
    (s.run more).pc = .done ∧ (s.run more).notifying = false ∧
    (s.run more).cancelCalls = s.cancelCalls ∧ (s.run more).ctxCanceled = s.ctxCanceled ∧
    (s.run more).logged = s.logged := by
  induction more generalizing s with
  | nil => exact ⟨hpc, hn, rfl, rfl, rfl⟩
  | cons a rest ih =>
    obtain ⟨k1, k2, k3, k4, k5⟩ := step_of_done hpc hn a
    obtain ⟨j1, j2, j3, j4, j5⟩ := ih k1 k2
    exact ⟨j1, j2, j3.trans k3, j4.trans k4, j5.trans k5⟩

/-- In a live process to which a signal has been relayed, four listener steps
finish the listener. -/
theorem listenerRuns_finish {sig : Signal} {s : Shutdown} (h : s.Inv (some sig))
    (hk : s.killed = false) : (s.run listenerRuns).pc = .done := by
  obtain ⟨notifying, sigs, pc, logged, cancelCalls, ctxCanceled, killed⟩ := s
  simp only at hk
  subst hk
  cases pc with
  | receive =>
    simp only [Shutdown.Inv] at h
    obtain ⟨_, _, h2, _⟩ := h
    subst h2
    simp [Shutdown.run, listenerRuns, Shutdown.step]
  | log sig' => simp [Shutdown.run, listenerRuns, Shutdown.step]
  | stop => simp [Shutdown.run, listenerRuns, Shutdown.step]
  | cancel => simp [Shutdown.run, listenerRuns, Shutdown.step]
  | done => simp [Shutdown.run, listenerRuns, Shutdown.step]

/-- What the invariant says about the observable fields. -/
theorem Inv_facts {f : Option Signal} {s : Shutdown} (h : s.Inv f) :
    s.cancelCalls ≤ 1 ∧ s.logged.length ≤ 1 ∧
    (s.ctxCanceled = true ↔ s.cancelCalls = 1) ∧
    (s.cancelCalls = 1 ↔ s.pc = .done) ∧
    (f = none →
      s.cancelCalls = 0 ∧ s.logged = [] ∧ s.ctxCanceled = false ∧ s.killed = false) ∧
    (s.killed = true → s.notifying = false) ∧
    (s.pc = .done → ∀ sig, f = some sig →
      s.cancelCalls = 1 ∧ s.ctxCanceled = true ∧ s.logged = [sig.String] ∧
      s.notifying = false) := by
  obtain ⟨notifying, sigs, pc, logged, cancelCalls, ctxCanceled, killed⟩ := s
  cases pc with
  | receive =>
    simp only [Shutdown.Inv] at h
    obtain ⟨h0, h1, h2, h3, h4, h5⟩ := h
    subst h0 h1 h2 h3 h4 h5
    simp
  | log sig' =>
    simp only [Shutdown.Inv] at h
    obtain ⟨h1, h0, h2, h3, h4, h5⟩ := h
    subst h0 h1 h2 h3 h4 h5
    simp
  | stop =>
    simp only [Shutdown.Inv] at h
    obtain ⟨⟨sg, h1, h3⟩, h0, h2, h4, h5⟩ := h
    subst h0 h1 h2 h3 h4 h5
    simp
  | cancel =>
    simp only [Shutdown.Inv] at h
    obtain ⟨⟨sg, h1, h3⟩, h2, h4, h5⟩ := h
    subst h1 h2 h3 h4 h5
    simp
  | done =>
    simp only [Shutdown.Inv] at h
    obtain ⟨⟨sg, h1, h3⟩, h2, h4, h5⟩ := h
    subst h1 h2 h3 h4 h5
    simp

/-- C8 on the code: SIGINT is delivered, the listener receives it, logs and calls
`signal.Stop`, and SIGTERM is delivered before `cancel()`.  The second signal
terminates the process; however many steps the listener is given afterwards,
`cancel()` is never called and the context is not canceled, although a signal was
delivered.  A schedule in which the listener is not given its steps leaves the
context live as well. -/
theorem signal_after_stop_counterexample :
    firstDelivered
      [.deliver .SIGINT, .listener, .listener, .listener, .deliver .SIGTERM] =
        some .SIGINT ∧
    (Shutdown.init.run
      ([.deliver .SIGINT, .listener, .listener, .listener, .deliver .SIGTERM] ++
        listenerRuns)).killed = true ∧
    (Shutdown.init.run
      ([.deliver .SIGINT, .listener, .listener, .listener, .deliver .SIGTERM] ++
        listenerRuns)).cancelCalls = 0 ∧
    (Shutdown.init.run
      ([.deliver .SIGINT, .listener, .listener, .listener, .deliver .SIGTERM] ++
        listenerRuns)).ctxCanceled = false ∧
    (Shutdown.init.run [.deliver .SIGINT, .listener]).cancelCalls = 0 := by
  decide

/-- C8 as amended: for every schedule of signal deliveries and listener steps, the
context is canceled at most once and the "Received signal" entry is logged at most
once, `cancel()` has been called exactly when the listener has finished, and
without a delivered signal nothing is canceled or logged and the process lives.  A
signal delivered while the channel is registered is buffered or dropped; one
delivered after `signal.Stop` terminates the process, after which nothing happens.
When a signal has been delivered and the process is alive, then once the listener
has run its four statements, whatever further signals and listener steps follow,
`cancel()` has been called exactly once, the context is canceled, the log holds the
single entry of the first delivered signal, the channel is no longer registered
and the listener has finished. -/
theorem signal_cancels_once (sched : List Action) :
    (Shutdown.init.run sched).cancelCalls ≤ 1 ∧
    (Shutdown.init.run sched).logged.length ≤ 1 ∧
    ((Shutdown.init.run sched).ctxCanceled = true ↔
      (Shutdown.init.run sched).cancelCalls = 1) ∧
    ((Shutdown.init.run sched).cancelCalls = 1 ↔ (Shutdown.init.run sched).pc = .done) ∧
    (firstDelivered sched = none →
      (Shutdown.init.run sched).cancelCalls = 0 ∧
      (Shutdown.init.run sched).logged = [] ∧
      (Shutdown.init.run sched).ctxCanceled = false ∧
      (Shutdown.init.run sched).killed = false) ∧
    ((Shutdown.init.run sched).killed = true →
      (Shutdown.init.run sched).notifying = false ∧
      ∀ more : List Action, Shutdown.init.run (sched ++ more) = Shutdown.init.run sched) ∧
    (∀ sig, firstDelivered sched = some sig → (Shutdown.init.run sched).killed = false →
      ∀ more : List Action,
      (Shutdown.init.run (sched ++ listenerRuns ++ more)).cancelCalls = 1 ∧
      (Shutdown.init.run (sched ++ listenerRuns ++ more)).ctxCanceled = true ∧
      (Shutdown.init.run (sched ++ listenerRuns ++ more)).logged = [sig.String] ∧
      (Shutdown.init.run (sched ++ listenerRuns ++ more)).notifying = false ∧
      (Shutdown.init.run (sched ++ listenerRuns ++ more)).pc = .done) := by
  have hinv : (Shutdown.init.run sched).Inv (firstDelivered sched) := by
    have := Inv_run Inv_init sched
    cases hf : firstDelivered sched <;> rw [hf] at this <;> exact this
  obtain ⟨h1, h2, h3, h4, h5, h6, _⟩ := Inv_facts hinv
  refine ⟨h1, h2, h3, h4, h5, ?_, ?_⟩
  · intro hk
    refine ⟨h6 hk, fun more => ?_⟩
    have hsplit : Shutdown.init.run (sched ++ more) = (Shutdown.init.run sched).run more := by
      simp [Shutdown.run, List.foldl_append]
    rw [hsplit, run_of_killed hk]
  · intro sig hf hk more
    have hsplit : Shutdown.init.run (sched ++ listenerRuns ++ more) =
        (((Shutdown.init.run sched).run listenerRuns).run more) := by
      simp [Shutdown.run, List.foldl_append]
    rw [hf] at hinv
    have hinv2 : ((Shutdown.init.run sched).run listenerRuns).Inv (some sig) :=
      Inv_run hinv listenerRuns
    have hpc := listenerRuns_finish hinv hk
    obtain ⟨_, _, _, _, _, _, h7⟩ := Inv_facts hinv2
    obtain ⟨k1, k2, k3, k4⟩ := h7 hpc sig rfl
    obtain ⟨j1, j2, j3, j4, j5⟩ := run_of_done hpc k4 more
    rw [hsplit]
    exact ⟨j3.trans k1, j4.trans k2, j5.trans k3, j2, j1⟩

/-- C8 as amended, at a concrete schedule: SIGINT, two listener steps, SIGTERM and
SIGINT while the channel is still registered, then the four listener steps and two
more signals. -/
theorem signal_cancels_once_witness :
    (Shutdown.init.run
      ([.deliver .SIGINT, .listener, .listener, .deliver .SIGTERM, .deliver .SIGINT] ++
        listenerRuns ++ [.deliver .SIGTERM, .deliver .SIGINT])).cancelCalls = 1 ∧
    (Shutdown.init.run
      ([.deliver .SIGINT, .listener, .listener, .deliver .SIGTERM, .deliver .SIGINT] ++
        listenerRuns ++ [.deliver .SIGTERM, .deliver .SIGINT])).logged =
      [Signal.SIGINT.String] :=
  have h := (signal_cancels_once
    [.deliver .SIGINT, .listener, .listener, .deliver .SIGTERM, .deliver .SIGINT]).2.2.2.2.2.2
      .SIGINT rfl (by decide) [.deliver .SIGTERM, .deliver .SIGINT]
  ⟨h.1, h.2.2.1⟩

end Musa
